import Mathlib

/-!
Verification of the MIDI device lifecycle core of `src/src/mmg-device.cpp`
(obs-midi-mg): the `MMGDevice` activation/capability state machine and the
`MMGDeviceManager` registry reconciliation and cascade logic.

The embedding is shallow and executable.  The single source file defines
`MMGDevice::json/update/isActive/setActive/checkCapable` and
`MMGDeviceManager::add/updateDeviceReferences/refreshBindingsForDevice/
capableDevices`; those are translated here statement by statement.  Members
inherited from `MMGMIDIPort` (`editable`, `isCapable`, `setCapable`,
`openPort`, `closePort`, `isPortOpen`, `objectName`) and from `MMGManager`
(`find`, `remove`, the device list) are not under `src/`; they are modelled
from the spec's transport and registry contracts, as noted on each
definition.  Mutation is explicit state passing; calls into external
collaborators (transport toggles, user prompts, binding refreshes, message
repointing) are additionally recorded in an event trace so that ordering
and cascade claims can be stated.
-/

/-- The two port directions used by the device code (`TYPE_INPUT`,
`TYPE_OUTPUT`).  The code's remaining enum values only reach `isActive`'s
`default` branch and are not exercised by the verified operations. -/
inductive DeviceType where
  | TYPE_INPUT
  | TYPE_OUTPUT
deriving DecidableEq

/-- The bit of the `uint` bitmasks belonging to a direction
(bit 0 = input, bit 1 = output, as in `0b01` / `0b10`). -/
def DeviceType.bit : DeviceType → Nat
  | .TYPE_INPUT => 1
  | .TYPE_OUTPUT => 2

/-- Modelled from the spec: the actual open/closed state of one device's
two transport ports. -/
structure PortState where
  inOpen : Bool
  outOpen : Bool
deriving DecidableEq

/-- Modelled from the spec: the transport collaborator's behaviour
(`openPort`/`closePort` either succeed or fail immediately).  A field per
direction records whether an open attempt succeeds and whether a close
attempt succeeds. -/
structure Transport where
  inOpenOk : Bool
  outOpenOk : Bool
  inCloseOk : Bool
  outCloseOk : Bool
deriving DecidableEq

def Transport.openOk (tr : Transport) : DeviceType → Bool
  | .TYPE_INPUT => tr.inOpenOk
  | .TYPE_OUTPUT => tr.outOpenOk

def Transport.closeOk (tr : Transport) : DeviceType → Bool
  | .TYPE_INPUT => tr.inCloseOk
  | .TYPE_OUTPUT => tr.outCloseOk

/-- The `MMGDevice` state.  `_active` and `capable` are the 2-bit `uint`
masks; `objectName`, `editable` and the port state come from the
`MMGMIDIPort` base (modelled from the spec, the base class is not under
`src/`). -/
structure MMGDevice where
  objectName : String
  _active : Nat
  capable : Nat
  _thru : String
  editable : Bool
  ports : PortState
deriving DecidableEq

/-- A `Message` of the ReferenceGraph: a device-name string and a
possibly-null device back-reference (held here by the referenced device's
unique name, mirroring the pointer's `objectName()`). -/
structure MMGMessage where
  deviceName : String
  device : Option String
deriving DecidableEq

/-- A `Binding` of the ReferenceGraph: its ordered messages. -/
structure MMGBinding where
  messages : List MMGMessage
deriving DecidableEq

/-- The global config: collections, each an ordered list of bindings. -/
structure MMGConfig where
  collections : List (List MMGBinding)
deriving DecidableEq

/-- Observable calls onto external collaborators, recorded in order:
transport toggles, the user prompt, `binding->refresh()` (identified by
collection and binding position) and `message->setDevice(...)`
(identified by collection, binding and message position). -/
inductive Event where
  | openPortEv : DeviceType → Event
  | closePortEv : DeviceType → Event
  | promptUser : String → Event
  | refreshEv : Nat → Nat → Event
  | setDeviceEv : Nat → Nat → Nat → Event
deriving DecidableEq

def Event.isRefreshEv : Event → Bool
  | .refreshEv _ _ => true
  | _ => false

def Event.isSetDeviceEv : Event → Bool
  | .setDeviceEv _ _ _ => true
  | _ => false

/-- The JSON record shape read and written by the device code:
`name`, integer `active` bitmask, optional `thru` string.  `none` for
`thru` models an absent field; QJson's `toString()` on an absent field
yields the empty string. -/
structure QJsonObject where
  name : String
  active : Nat
  thru : Option String
deriving DecidableEq

/-- Modelled from the spec: the initial `MMGMIDIPort` base state of a
freshly constructed device.  The base class is not under `src/`; the spec
fixes that a new device starts inactive, while its initial capability,
editability and actual port state are left open, so they are parameters. -/
structure PortInit where
  capable : Nat
  editable : Bool
  ports : PortState
deriving DecidableEq

/-- Modelled from the spec: the translated display name
`mmgtr("Device.Dummy")` of the placeholder dummy device. -/
def dummyName : String := "Device.Dummy"

-- ## MMGDevice operations

def PortState.get (p : PortState) : DeviceType → Bool
  | .TYPE_INPUT => p.inOpen
  | .TYPE_OUTPUT => p.outOpen

def PortState.set (p : PortState) : DeviceType → Bool → PortState
  | .TYPE_INPUT, b => { p with inOpen := b }
  | .TYPE_OUTPUT, b => { p with outOpen := b }

/-- Modelled from the spec: `isPortOpen` reports the transport's actual
open state for the direction. -/
def MMGDevice.isPortOpen (d : MMGDevice) (t : DeviceType) : Bool :=
  d.ports.get t

/-- Modelled from the spec: `openPort` asks the transport to open the
direction; opening an already-open port is a safe no-op, a failed open
leaves the port closed. -/
def MMGDevice.openPort (tr : Transport) (d : MMGDevice) (t : DeviceType) : MMGDevice :=
  { d with ports := d.ports.set t (d.ports.get t || tr.openOk t) }

/-- Modelled from the spec: `closePort` asks the transport to close the
direction; closing an already-closed port is a safe no-op, a failed close
leaves the port open. -/
def MMGDevice.closePort (tr : Transport) (d : MMGDevice) (t : DeviceType) : MMGDevice :=
  { d with ports := d.ports.set t (d.ports.get t && !tr.closeOk t) }

/-- `MMGDevice::isActive` for the two directions: the corresponding bit
of `_active` (`_active & 0b01` / `_active & 0b10`). -/
def MMGDevice.isActive (d : MMGDevice) (t : DeviceType) : Bool :=
  d._active &&& t.bit != 0

/-- Modelled from the spec: `isCapable` (from `MMGMIDIPort`) reads the
corresponding bit of the 2-bit capability mask. -/
def MMGDevice.isCapable (d : MMGDevice) (t : DeviceType) : Bool :=
  d.capable &&& t.bit != 0

/-- Modelled from the spec: `setCapable` (from `MMGMIDIPort`) sets or
clears the direction's bit of the capability mask (`uint` width). -/
def MMGDevice.setCapable (d : MMGDevice) (t : DeviceType) (b : Bool) : MMGDevice :=
  { d with capable := if b then d.capable ||| t.bit else d.capable &&& (0xFFFFFFFF ^^^ t.bit) }

/-- `MMGDevice::json`: emits `name`, the combined `active` mask as an
integer, and `thru` only when the stored string is non-empty. -/
def MMGDevice.json (d : MMGDevice) : QJsonObject :=
  { name := d.objectName
    active := d._active
    thru := if d._thru.isEmpty then none else some d._thru }

/-- Does this binding's first message reference the device name?  This is
the activation-cascade condition of `MMGDevice::setActive` (size check,
null check, then `message->deviceName() == objectName()`). -/
def bindingFirstMatches (name : String) (b : MMGBinding) : Bool :=
  match b.messages with
  | [] => false
  | m :: _ => m.deviceName == name

/-- Does any message of the binding reference the device name?  This is
the broad-cascade condition of `MMGDeviceManager::refreshBindingsForDevice`. -/
def bindingAnyMatches (name : String) (b : MMGBinding) : Bool :=
  b.messages.any (fun m => m.deviceName == name)

/-- The inner binding loop shared by both cascades: walk the bindings of
one collection (collection index `ci`, first binding index `bi`), emitting
a `refresh` event for each binding satisfying the condition. -/
def refreshEventsFor (cond : MMGBinding → Bool) (ci : Nat) : Nat → List MMGBinding → List Event
  | _, [] => []
  | bi, b :: rest =>
    (if cond b then [Event.refreshEv ci bi] else []) ++ refreshEventsFor cond ci (bi + 1) rest

/-- The outer collection loop shared by both cascades. -/
def refreshEventsCfg (cond : MMGBinding → Bool) : Nat → List (List MMGBinding) → List Event
  | _, [] => []
  | ci, coll :: rest => refreshEventsFor cond ci 0 coll ++ refreshEventsCfg cond (ci + 1) rest

/-- The activation cascade of `MMGDevice::setActive` (lines 100–124):
if the config is available, refresh every binding whose first message
names this device. -/
def activationRefreshEvents (cfg : Option MMGConfig) (name : String) : List Event :=
  match cfg with
  | none => []
  | some c => refreshEventsCfg (bindingFirstMatches name) 0 c.collections

/-- `MMGDevice::setActive`: no-op guard, transport toggle, port-state
verification with `PortOpenError` prompt, bit flip, activation cascade.
The config handle (`config()` in the source) and the transport behaviour
are explicit parameters. -/
def MMGDevice.setActive (tr : Transport) (cfg : Option MMGConfig) (d : MMGDevice)
    (t : DeviceType) (active : Bool) : MMGDevice × List Event :=
  if !d.editable || (d.isActive t == active) || !d.isCapable t then (d, [])
  else
    let toggled := if !d.isActive t then d.openPort tr t else d.closePort tr t
    let toggleEv := if !d.isActive t then Event.openPortEv t else Event.closePortEv t
    -- Is the port not in the correct state?
    if toggled.isPortOpen t == toggled.isActive t then
      (toggled, [toggleEv, Event.promptUser "PortOpenError"])
    else
      let flipped := { toggled with _active := toggled._active ^^^ t.bit }
      (flipped, toggleEv :: (if active then activationRefreshEvents cfg d.objectName else []))

/-- `MMGDevice::update`: apply the record's active bits per direction via
`setActive`, then store `thru` verbatim (absent field reads as `""`). -/
def MMGDevice.update (tr : Transport) (cfg : Option MMGConfig) (d : MMGDevice)
    (json_obj : QJsonObject) : MMGDevice × List Event :=
  let activeState := json_obj.active
  let r1 := if activeState &&& 1 != 0 then d.setActive tr cfg .TYPE_INPUT true
            else d.setActive tr cfg .TYPE_INPUT false
  let r2 := if activeState &&& 2 != 0 then r1.1.setActive tr cfg .TYPE_OUTPUT true
            else r1.1.setActive tr cfg .TYPE_OUTPUT false
  ({ r2.1 with _thru := json_obj.thru.getD "" }, r1.2 ++ r2.2)

/-- `MMGDevice::checkCapable`: save and clear `_active`, close both
ports, probe input then output by opening and recording `isPortOpen` as
the new capability, close both ports, then restore the saved active state
through `setActive` for each direction. -/
def MMGDevice.checkCapable (tr : Transport) (cfg : Option MMGConfig) (d : MMGDevice) :
    MMGDevice × List Event :=
  let active := d._active
  let d0 := { d with _active := 0 }
  let d1 := d0.closePort tr .TYPE_INPUT
  let d2 := d1.closePort tr .TYPE_OUTPUT
  let d3 := d2.openPort tr .TYPE_INPUT
  let d4 := d3.setCapable .TYPE_INPUT (d3.isPortOpen .TYPE_INPUT)
  let d5 := d4.openPort tr .TYPE_OUTPUT
  let d6 := d5.setCapable .TYPE_OUTPUT (d5.isPortOpen .TYPE_OUTPUT)
  let d7 := d6.closePort tr .TYPE_INPUT
  let d8 := d7.closePort tr .TYPE_OUTPUT
  let probeEvs : List Event :=
    [.closePortEv .TYPE_INPUT, .closePortEv .TYPE_OUTPUT,
     .openPortEv .TYPE_INPUT, .openPortEv .TYPE_OUTPUT,
     .closePortEv .TYPE_INPUT, .closePortEv .TYPE_OUTPUT]
  let r1 := d8.setActive tr cfg .TYPE_INPUT (active &&& 1 != 0)
  let r2 := r1.1.setActive tr cfg .TYPE_OUTPUT (active &&& 2 != 0)
  (r2.1, probeEvs ++ r1.2 ++ r2.2)

/-- The `MMGDevice` constructor: initialise the `MMGMIDIPort` base (name
from the record; starts inactive; remaining base state from the modelled
`PortInit`), then `update(json_obj)`. -/
def constructBase (pinit : PortInit) (json_obj : QJsonObject) : MMGDevice :=
  { objectName := json_obj.name, _active := 0, capable := pinit.capable,
    _thru := "", editable := pinit.editable, ports := pinit.ports }

def MMGDevice.construct (tr : Transport) (cfg : Option MMGConfig) (pinit : PortInit)
    (json_obj : QJsonObject) : MMGDevice × List Event :=
  (constructBase pinit json_obj).update tr cfg json_obj

-- ## MMGDeviceManager operations

/-- The registry: the manager's ordered `_list` of devices. -/
structure MMGDeviceManager where
  _list : List MMGDevice

/-- Modelled from the spec: `MMGManager::find` — exact-name lookup,
`none` when absent. -/
def MMGDeviceManager.find (mgr : MMGDeviceManager) (name : String) : Option MMGDevice :=
  mgr._list.find? (fun d => d.objectName == name)

/-- Modelled from the spec: `MMGManager::remove` deletes the found
device's entry (the first entry with that name; names are unique). -/
def MMGDeviceManager.removeByName (mgr : MMGDeviceManager) (name : String) : MMGDeviceManager :=
  { _list := mgr._list.eraseP (fun d => d.objectName == name) }

/-- In-place update of the (first) device with the given name, as the
source's `current_device->update(json_obj)` mutates the found entry. -/
def replaceFirstNamed : List MMGDevice → String → MMGDevice → List MMGDevice
  | [], _, _ => []
  | d :: rest, name, d' =>
    if d.objectName == name then d' :: rest else d :: replaceFirstNamed rest name d'

/-- One message of the repointing pass of
`MMGDeviceManager::updateDeviceReferences`: repoint when the back
reference is null or names the given device; the flag records whether
`setDevice` was called. -/
def repointMessage (deviceName newName : String) (m : MMGMessage) : MMGMessage × Bool :=
  if m.device.isNone || m.device == some deviceName then
    ({ m with device := some newName }, true)
  else (m, false)

/-- Message loop of the repointing pass (message index `mi` within
binding `(ci, bi)`). -/
def repointMsgList (deviceName newName : String) (ci bi : Nat) :
    Nat → List MMGMessage → List MMGMessage × List Event
  | _, [] => ([], [])
  | mi, m :: rest =>
    let r := repointMessage deviceName newName m
    let rec' := repointMsgList deviceName newName ci bi (mi + 1) rest
    (r.1 :: rec'.1, (if r.2 then [Event.setDeviceEv ci bi mi] else []) ++ rec'.2)

/-- Binding loop of the repointing pass. -/
def repointBindList (deviceName newName : String) (ci : Nat) :
    Nat → List MMGBinding → List MMGBinding × List Event
  | _, [] => ([], [])
  | bi, b :: rest =>
    let r := repointMsgList deviceName newName ci bi 0 b.messages
    let rec' := repointBindList deviceName newName ci (bi + 1) rest
    ({ messages := r.1 } :: rec'.1, r.2 ++ rec'.2)

/-- Collection loop of the repointing pass. -/
def repointCollList (deviceName newName : String) :
    Nat → List (List MMGBinding) → List (List MMGBinding) × List Event
  | _, [] => ([], [])
  | ci, coll :: rest =>
    let r := repointBindList deviceName newName ci 0 coll
    let rec' := repointCollList deviceName newName (ci + 1) rest
    (r.1 :: rec'.1, r.2 ++ rec'.2)

/-- `MMGDeviceManager::updateDeviceReferences`: with no config, return
without touching anything; otherwise repoint every message whose device
back-reference is null or names `deviceName` to the new device. -/
def MMGDeviceManager.updateDeviceReferences (cfg : Option MMGConfig)
    (deviceName newName : String) : Option MMGConfig × List Event :=
  match cfg with
  | none => (none, [])
  | some c =>
    let r := repointCollList deviceName newName 0 c.collections
    (some { collections := r.1 }, r.2)

/-- `MMGDeviceManager::refreshBindingsForDevice`: with no config, return
without refreshing; otherwise refresh every binding having any message
naming the device. -/
def MMGDeviceManager.refreshBindingsForDevice (cfg : Option MMGConfig)
    (deviceName : String) : List Event :=
  match cfg with
  | none => []
  | some c => refreshEventsCfg (bindingAnyMatches deviceName) 0 c.collections

/-- Result of `MMGDeviceManager::add`: the new registry and config
states, the returned device, and the recorded event trace. -/
structure AddResult where
  manager : MMGDeviceManager
  config : Option MMGConfig
  returned : MMGDevice
  events : List Event

/-- `MMGDeviceManager::add(json_obj)`: update an existing device in place
and broad-refresh; otherwise drop a dummy placeholder if present,
construct and register the new device, repoint message references, then
broad-refresh. -/
def MMGDeviceManager.add (tr : Transport) (pinit : PortInit) (mgr : MMGDeviceManager)
    (cfg : Option MMGConfig) (json_obj : QJsonObject) : AddResult :=
  let deviceName := json_obj.name
  match mgr.find deviceName with
  | some current_device =>
    let r := current_device.update tr cfg json_obj
    { manager := { _list := replaceFirstNamed mgr._list deviceName r.1 }
      config := cfg
      returned := r.1
      events := r.2 ++ MMGDeviceManager.refreshBindingsForDevice cfg deviceName }
  | none =>
    let mgr1 := if (mgr.find dummyName).isSome then mgr.removeByName dummyName else mgr
    let rNew := MMGDevice.construct tr cfg pinit json_obj
    let mgr2 : MMGDeviceManager := { _list := mgr1._list ++ [rNew.1] }
    let rCfg := MMGDeviceManager.updateDeviceReferences cfg deviceName rNew.1.objectName
    { manager := mgr2
      config := rCfg.1
      returned := rNew.1
      events := rNew.2 ++ rCfg.2 ++ MMGDeviceManager.refreshBindingsForDevice rCfg.1 deviceName }

/-- `MMGDeviceManager::capableDevices`: names of the devices capable in
the direction, in list order. -/
def MMGDeviceManager.capableDevices (mgr : MMGDeviceManager) (t : DeviceType) : List String :=
  mgr._list.foldr (fun d acc => if d.isCapable t then d.objectName :: acc else acc) []

/-- The binding stored at collection index `ci`, binding index `bi`. -/
def bindingAt (cfg : Option MMGConfig) (ci bi : Nat) : Option MMGBinding :=
  match cfg with
  | none => none
  | some c =>
    match c.collections[ci]? with
    | none => none
    | some coll => coll[bi]?

/-- The message stored at position `(ci, bi, mi)`. -/
def messageAt (cfg : Option MMGConfig) (ci bi mi : Nat) : Option MMGMessage :=
  (bindingAt cfg ci bi).bind (fun b => b.messages[mi]?)

/-- Index of a direction's mask bit. -/
def DeviceType.bitIdx : DeviceType → Nat
  | .TYPE_INPUT => 0
  | .TYPE_OUTPUT => 1

/-- The other direction. -/
def DeviceType.other : DeviceType → DeviceType
  | .TYPE_INPUT => .TYPE_OUTPUT
  | .TYPE_OUTPUT => .TYPE_INPUT

/-- The device after the transport toggle of `setActive`. -/
def MMGDevice.toggledDev (tr : Transport) (d : MMGDevice) (t : DeviceType) : MMGDevice :=
  if !d.isActive t then d.openPort tr t else d.closePort tr t

/-- The trace event of the transport toggle of `setActive`. -/
def MMGDevice.toggleEvent (d : MMGDevice) (t : DeviceType) : Event :=
  if !d.isActive t then Event.openPortEv t else Event.closePortEv t

-- ## Concrete fixtures for witnesses and counterexamples

/-- A transport on which every open and close succeeds. -/
def trOK : Transport := ⟨true, true, true, true⟩

/-- An editable, fully capable, inactive device named "A" with both
ports closed. -/
def devA : MMGDevice := ⟨"A", 0, 3, "", true, ⟨false, false⟩⟩

/-- An editable, inactive device named "A" capable of neither direction. -/
def devNoCap : MMGDevice := ⟨"A", 0, 0, "", true, ⟨false, false⟩⟩

/-- A config with one collection holding two bindings: one whose first
message names "A", one whose first message names "B" but whose second
names "A". -/
def cfgA : MMGConfig :=
  { collections := [[⟨[⟨"A", none⟩]⟩, ⟨[⟨"B", none⟩, ⟨"A", none⟩]⟩]] }


/-- The empty registry. -/
def mgrEmpty : MMGDeviceManager := ⟨[]⟩

/-- The placeholder dummy device. -/
def dummyDev : MMGDevice := ⟨dummyName, 0, 0, "", true, ⟨false, false⟩⟩

/-- A registry holding only the dummy placeholder. -/
def mgrDummy : MMGDeviceManager := ⟨[dummyDev]⟩

/-- Initial base state of a new device: fully capable, editable, ports
closed. -/
def pinitCap : PortInit := ⟨3, true, ⟨false, false⟩⟩

/-- Initial base state of a new device with no capability. -/
def pinitNoCap : PortInit := ⟨0, true, ⟨false, false⟩⟩

/-- A registry holding only the capable device "A". -/
def mgrA : MMGDeviceManager := ⟨[devA]⟩

/-- The condition under which a single `setActive(t, want)` call reaches
the requested state: either it is already there (the no-op guard), or
the device is capable of `t` and the transport toggle leaves the port in
the intended state. -/
def toggleSucceeds (tr : Transport) (d : MMGDevice) (t : DeviceType) (want : Bool) : Bool :=
  if d.isActive t == want then true
  else d.isCapable t &&
    (if want then d.isPortOpen t || tr.openOk t
     else !(d.isPortOpen t && !tr.closeOk t))

/-- The device state at the end of `checkCapable`'s probe phase (after
the final pair of `closePort` calls, before the active state is
restored): the composition of the probe steps in source order. -/
def probedDevice (tr : Transport) (d : MMGDevice) : MMGDevice :=
  let d0 := { d with _active := 0 }
  let d1 := d0.closePort tr .TYPE_INPUT
  let d2 := d1.closePort tr .TYPE_OUTPUT
  let d3 := d2.openPort tr .TYPE_INPUT
  let d4 := d3.setCapable .TYPE_INPUT (d3.isPortOpen .TYPE_INPUT)
  let d5 := d4.openPort tr .TYPE_OUTPUT
  let d6 := d5.setCapable .TYPE_OUTPUT (d5.isPortOpen .TYPE_OUTPUT)
  let d7 := d6.closePort tr .TYPE_INPUT
  d7.closePort tr .TYPE_OUTPUT

/-- The transport events of `checkCapable`'s probe phase, in the order
the source performs them. -/
def probeEvsList : List Event :=
  [.closePortEv .TYPE_INPUT, .closePortEv .TYPE_OUTPUT,
   .openPortEv .TYPE_INPUT, .openPortEv .TYPE_OUTPUT,
   .closePortEv .TYPE_INPUT, .closePortEv .TYPE_OUTPUT]

/-- The probe order asserted by the claim: close both directions, open
Input, close Input again, then open Output, close Output. -/
def claimedProbeTrace : List Event :=
  [.closePortEv .TYPE_INPUT, .closePortEv .TYPE_OUTPUT,
   .openPortEv .TYPE_INPUT, .closePortEv .TYPE_INPUT,
   .openPortEv .TYPE_OUTPUT, .closePortEv .TYPE_OUTPUT]

-- ## Bitmask helper lemmas



lemma testBit_one_eq (i : Nat) : Nat.testBit 1 i = decide (i = 0) := by
  cases i with
  | zero => decide
  | succ k => rw [Nat.testBit_succ]; simp [Nat.zero_testBit]

lemma testBit_two_eq (i : Nat) : Nat.testBit 2 i = decide (i = 1) := by
  cases i with
  | zero => decide
  | succ k => rw [Nat.testBit_succ]; simp [testBit_one_eq]

lemma testBit_devBit (t : DeviceType) (i : Nat) :
    t.bit.testBit i = decide (i = t.bitIdx) := by
  cases t <;> simp [DeviceType.bit, DeviceType.bitIdx, testBit_one_eq, testBit_two_eq]

lemma and_devBit_ne_zero (a : Nat) (t : DeviceType) :
    (a &&& t.bit != 0) = a.testBit t.bitIdx := by
  cases t
  · show (a &&& 1 != 0) = a.testBit 0
    rw [Nat.and_one_is_mod, Nat.testBit_zero]
    rcases Nat.mod_two_eq_zero_or_one a with h | h <;> simp [h]
  · show (a &&& 2 != 0) = a.testBit 1
    have h := Nat.and_two_pow a 1
    norm_num at h
    rw [h]
    cases a.testBit 1 <;> simp

lemma xor_devBit_testBit (a : Nat) (t : DeviceType) (i : Nat) :
    (a ^^^ t.bit).testBit i = (a.testBit i).xor (decide (i = t.bitIdx)) := by
  rw [Nat.testBit_xor, testBit_devBit]

lemma or_devBit_testBit (a : Nat) (t : DeviceType) (i : Nat) :
    (a ||| t.bit).testBit i = (a.testBit i || decide (i = t.bitIdx)) := by
  rw [Nat.testBit_or, testBit_devBit]

lemma mask_const_eq : (0xFFFFFFFF : Nat) = 2 ^ 32 - 1 := by norm_num

lemma andmask_devBit_testBit (a : Nat) (t : DeviceType) (t' : DeviceType) :
    (a &&& (0xFFFFFFFF ^^^ t.bit)).testBit t'.bitIdx =
      (a.testBit t'.bitIdx && !decide (t'.bitIdx = t.bitIdx)) := by
  rw [Nat.testBit_and, Nat.testBit_xor, testBit_devBit, mask_const_eq,
    Nat.testBit_two_pow_sub_one]
  have h32 : t'.bitIdx < 32 := by cases t' <;> simp [DeviceType.bitIdx]
  simp [h32]

-- ## Field-access lemmas for the primitive operations

lemma PortState.get_set_self (p : PortState) (t : DeviceType) (b : Bool) :
    (p.set t b).get t = b := by cases t <;> rfl

lemma PortState.get_set_other (p : PortState) (t t' : DeviceType) (b : Bool) (h : t' ≠ t) :
    (p.set t b).get t' = p.get t' := by
  cases t <;> cases t' <;> first | rfl | exact absurd rfl h

lemma MMGDevice.isActive_testBit (d : MMGDevice) (t : DeviceType) :
    d.isActive t = d._active.testBit t.bitIdx := by
  rw [MMGDevice.isActive, and_devBit_ne_zero]

lemma MMGDevice.isCapable_testBit (d : MMGDevice) (t : DeviceType) :
    d.isCapable t = d.capable.testBit t.bitIdx := by
  rw [MMGDevice.isCapable, and_devBit_ne_zero]

lemma bitIdx_inj (t t' : DeviceType) : t.bitIdx = t'.bitIdx ↔ t = t' := by
  cases t <;> cases t' <;> simp [DeviceType.bitIdx]

lemma other_ne (t : DeviceType) : t.other ≠ t := by cases t <;> simp [DeviceType.other]



lemma toggledDev_active (tr : Transport) (d : MMGDevice) (t : DeviceType) :
    (d.toggledDev tr t)._active = d._active := by
  unfold MMGDevice.toggledDev; split <;> rfl

lemma toggledDev_capable (tr : Transport) (d : MMGDevice) (t : DeviceType) :
    (d.toggledDev tr t).capable = d.capable := by
  unfold MMGDevice.toggledDev; split <;> rfl

lemma toggledDev_thru (tr : Transport) (d : MMGDevice) (t : DeviceType) :
    (d.toggledDev tr t)._thru = d._thru := by
  unfold MMGDevice.toggledDev; split <;> rfl

lemma toggledDev_name (tr : Transport) (d : MMGDevice) (t : DeviceType) :
    (d.toggledDev tr t).objectName = d.objectName := by
  unfold MMGDevice.toggledDev; split <;> rfl

lemma toggledDev_editable (tr : Transport) (d : MMGDevice) (t : DeviceType) :
    (d.toggledDev tr t).editable = d.editable := by
  unfold MMGDevice.toggledDev; split <;> rfl

lemma toggledDev_isActive (tr : Transport) (d : MMGDevice) (t t' : DeviceType) :
    (d.toggledDev tr t).isActive t' = d.isActive t' := by
  rw [MMGDevice.isActive_testBit, MMGDevice.isActive_testBit, toggledDev_active]

-- ## Branch lemmas for `setActive`

lemma setActive_noop (tr : Transport) (cfg : Option MMGConfig) (d : MMGDevice)
    (t : DeviceType) (want : Bool)
    (h : (!d.editable || (d.isActive t == want) || !d.isCapable t) = true) :
    d.setActive tr cfg t want = (d, []) := by
  unfold MMGDevice.setActive
  simp [h]

lemma setActive_err (tr : Transport) (cfg : Option MMGConfig) (d : MMGDevice)
    (t : DeviceType) (want : Bool)
    (hg : (!d.editable || (d.isActive t == want) || !d.isCapable t) = false)
    (hp : (d.toggledDev tr t).isPortOpen t = d.isActive t) :
    d.setActive tr cfg t want =
      (d.toggledDev tr t, [d.toggleEvent t, Event.promptUser "PortOpenError"]) := by
  unfold MMGDevice.setActive
  rw [if_neg (by simp [hg])]
  rw [if_pos]
  · rfl
  · show ((d.toggledDev tr t).isPortOpen t == (d.toggledDev tr t).isActive t) = true
    rw [toggledDev_isActive, hp]
    simp

lemma setActive_ok (tr : Transport) (cfg : Option MMGConfig) (d : MMGDevice)
    (t : DeviceType) (want : Bool)
    (hg : (!d.editable || (d.isActive t == want) || !d.isCapable t) = false)
    (hp : (d.toggledDev tr t).isPortOpen t = !d.isActive t) :
    d.setActive tr cfg t want =
      ({ d.toggledDev tr t with _active := (d.toggledDev tr t)._active ^^^ t.bit },
       d.toggleEvent t ::
         (if want then activationRefreshEvents cfg d.objectName else [])) := by
  unfold MMGDevice.setActive
  rw [if_neg (by simp [hg])]
  rw [if_neg]
  · rfl
  · show ¬((d.toggledDev tr t).isPortOpen t == (d.toggledDev tr t).isActive t) = true
    rw [toggledDev_isActive, hp]
    cases d.isActive t <;> simp

/-- Every `setActive` call lands in one of the three source branches:
the no-op guard, the `PortOpenError` branch, or the successful flip. -/
lemma setActive_cases (tr : Transport) (cfg : Option MMGConfig) (d : MMGDevice)
    (t : DeviceType) (want : Bool) :
    d.setActive tr cfg t want = (d, [])
    ∨ d.setActive tr cfg t want =
        (d.toggledDev tr t, [d.toggleEvent t, Event.promptUser "PortOpenError"])
    ∨ d.setActive tr cfg t want =
        ({ d.toggledDev tr t with _active := (d.toggledDev tr t)._active ^^^ t.bit },
         d.toggleEvent t ::
           (if want then activationRefreshEvents cfg d.objectName else [])) := by
  cases hg : (!d.editable || (d.isActive t == want) || !d.isCapable t) with
  | true => exact Or.inl (setActive_noop tr cfg d t want hg)
  | false =>
    cases hpo : (d.toggledDev tr t).isPortOpen t <;> cases hact : d.isActive t
    · exact Or.inr (Or.inl (setActive_err tr cfg d t want hg (by rw [hpo, hact])))
    · exact Or.inr (Or.inr (setActive_ok tr cfg d t want hg (by rw [hpo, hact]; rfl)))
    · exact Or.inr (Or.inr (setActive_ok tr cfg d t want hg (by rw [hpo, hact]; rfl)))
    · exact Or.inr (Or.inl (setActive_err tr cfg d t want hg (by rw [hpo, hact])))

lemma toggleEvent_cases (d : MMGDevice) (t : DeviceType) :
    d.toggleEvent t = Event.openPortEv t ∨ d.toggleEvent t = Event.closePortEv t := by
  unfold MMGDevice.toggleEvent; split
  · exact Or.inl rfl
  · exact Or.inr rfl

lemma toggleEvent_not_refresh (d : MMGDevice) (t : DeviceType) :
    (d.toggleEvent t).isRefreshEv = false := by
  rcases toggleEvent_cases d t with h | h <;> rw [h] <;> rfl

lemma toggleEvent_not_setDevice (d : MMGDevice) (t : DeviceType) :
    (d.toggleEvent t).isSetDeviceEv = false := by
  rcases toggleEvent_cases d t with h | h <;> rw [h] <;> rfl

lemma toggleEvent_ne_prompt (d : MMGDevice) (t : DeviceType) (s : String) :
    d.toggleEvent t ≠ Event.promptUser s := by
  rcases toggleEvent_cases d t with h | h <;> rw [h] <;> intro hc <;> cases hc

lemma setActive_capable (tr : Transport) (cfg : Option MMGConfig) (d : MMGDevice)
    (t : DeviceType) (want : Bool) :
    (d.setActive tr cfg t want).1.capable = d.capable := by
  rcases setActive_cases tr cfg d t want with h | h | h <;> rw [h]
  · exact toggledDev_capable tr d t
  · exact toggledDev_capable tr d t

lemma setActive_thru (tr : Transport) (cfg : Option MMGConfig) (d : MMGDevice)
    (t : DeviceType) (want : Bool) :
    (d.setActive tr cfg t want).1._thru = d._thru := by
  rcases setActive_cases tr cfg d t want with h | h | h <;> rw [h]
  · exact toggledDev_thru tr d t
  · exact toggledDev_thru tr d t

lemma setActive_name (tr : Transport) (cfg : Option MMGConfig) (d : MMGDevice)
    (t : DeviceType) (want : Bool) :
    (d.setActive tr cfg t want).1.objectName = d.objectName := by
  rcases setActive_cases tr cfg d t want with h | h | h <;> rw [h]
  · exact toggledDev_name tr d t
  · exact toggledDev_name tr d t

lemma setActive_editable (tr : Transport) (cfg : Option MMGConfig) (d : MMGDevice)
    (t : DeviceType) (want : Bool) :
    (d.setActive tr cfg t want).1.editable = d.editable := by
  rcases setActive_cases tr cfg d t want with h | h | h <;> rw [h]
  · exact toggledDev_editable tr d t
  · exact toggledDev_editable tr d t


-- ## Port and capability step lemmas

lemma openPort_isPortOpen_self (tr : Transport) (d : MMGDevice) (t : DeviceType) :
    (d.openPort tr t).isPortOpen t = (d.isPortOpen t || tr.openOk t) := by
  unfold MMGDevice.openPort MMGDevice.isPortOpen
  exact PortState.get_set_self _ _ _

lemma openPort_isPortOpen_other (tr : Transport) (d : MMGDevice) (t t' : DeviceType)
    (h : t' ≠ t) : (d.openPort tr t).isPortOpen t' = d.isPortOpen t' := by
  unfold MMGDevice.openPort MMGDevice.isPortOpen
  exact PortState.get_set_other _ _ _ _ h

lemma closePort_isPortOpen_self (tr : Transport) (d : MMGDevice) (t : DeviceType) :
    (d.closePort tr t).isPortOpen t = (d.isPortOpen t && !tr.closeOk t) := by
  unfold MMGDevice.closePort MMGDevice.isPortOpen
  exact PortState.get_set_self _ _ _

lemma closePort_isPortOpen_other (tr : Transport) (d : MMGDevice) (t t' : DeviceType)
    (h : t' ≠ t) : (d.closePort tr t).isPortOpen t' = d.isPortOpen t' := by
  unfold MMGDevice.closePort MMGDevice.isPortOpen
  exact PortState.get_set_other _ _ _ _ h

lemma setCapable_capable_true (d : MMGDevice) (t : DeviceType) :
    (d.setCapable t true).capable = d.capable ||| t.bit := rfl

lemma setCapable_capable_false (d : MMGDevice) (t : DeviceType) :
    (d.setCapable t false).capable = d.capable &&& (0xFFFFFFFF ^^^ t.bit) := rfl

lemma setCapable_isCapable_self (d : MMGDevice) (t : DeviceType) (b : Bool) :
    (d.setCapable t b).isCapable t = b := by
  cases b
  · rw [MMGDevice.isCapable_testBit, setCapable_capable_false, andmask_devBit_testBit]
    simp
  · rw [MMGDevice.isCapable_testBit, setCapable_capable_true, or_devBit_testBit]
    simp

lemma setCapable_isCapable_other (d : MMGDevice) (t t' : DeviceType) (b : Bool)
    (h : t' ≠ t) : (d.setCapable t b).isCapable t' = d.isCapable t' := by
  have hne : ¬t'.bitIdx = t.bitIdx := by rw [bitIdx_inj]; exact h
  cases b
  · rw [MMGDevice.isCapable_testBit, MMGDevice.isCapable_testBit,
      setCapable_capable_false, andmask_devBit_testBit]
    simp [hne]
  · rw [MMGDevice.isCapable_testBit, MMGDevice.isCapable_testBit,
      setCapable_capable_true, or_devBit_testBit]
    simp [hne]

-- ## The probe phase of `checkCapable`

lemma checkCapable_eq (tr : Transport) (cfg : Option MMGConfig) (d : MMGDevice) :
    d.checkCapable tr cfg =
      (let r1 := (probedDevice tr d).setActive tr cfg .TYPE_INPUT (d._active &&& 1 != 0)
       let r2 := r1.1.setActive tr cfg .TYPE_OUTPUT (d._active &&& 2 != 0)
       (r2.1, probeEvsList ++ r1.2 ++ r2.2)) := rfl

lemma probedDevice_active (tr : Transport) (d : MMGDevice) :
    (probedDevice tr d)._active = 0 := rfl

lemma probedDevice_editable (tr : Transport) (d : MMGDevice) :
    (probedDevice tr d).editable = d.editable := rfl

lemma probedDevice_thru (tr : Transport) (d : MMGDevice) :
    (probedDevice tr d)._thru = d._thru := rfl

lemma probedDevice_name (tr : Transport) (d : MMGDevice) :
    (probedDevice tr d).objectName = d.objectName := rfl

lemma probedDevice_isCapable_in (tr : Transport) (d : MMGDevice) :
    (probedDevice tr d).isCapable .TYPE_INPUT =
      ((d.ports.inOpen && !tr.inCloseOk) || tr.inOpenOk) := by
  unfold probedDevice
  rw [show (∀ x : MMGDevice, (x.closePort tr .TYPE_OUTPUT).isCapable .TYPE_INPUT =
        x.isCapable .TYPE_INPUT) from fun x => rfl]
  rw [show (∀ x : MMGDevice, (x.closePort tr .TYPE_INPUT).isCapable .TYPE_INPUT =
        x.isCapable .TYPE_INPUT) from fun x => rfl]
  rw [setCapable_isCapable_other _ _ _ _ (by decide)]
  rw [show (∀ x : MMGDevice, (x.openPort tr .TYPE_OUTPUT).isCapable .TYPE_INPUT =
        x.isCapable .TYPE_INPUT) from fun x => rfl]
  rw [setCapable_isCapable_self]
  rw [openPort_isPortOpen_self, closePort_isPortOpen_other _ _ _ _ (by decide),
    closePort_isPortOpen_self]
  rfl

lemma probedDevice_isCapable_out (tr : Transport) (d : MMGDevice) :
    (probedDevice tr d).isCapable .TYPE_OUTPUT =
      ((d.ports.outOpen && !tr.outCloseOk) || tr.outOpenOk) := by
  unfold probedDevice
  rw [show (∀ x : MMGDevice, (x.closePort tr .TYPE_OUTPUT).isCapable .TYPE_OUTPUT =
        x.isCapable .TYPE_OUTPUT) from fun x => rfl]
  rw [show (∀ x : MMGDevice, (x.closePort tr .TYPE_INPUT).isCapable .TYPE_OUTPUT =
        x.isCapable .TYPE_OUTPUT) from fun x => rfl]
  rw [setCapable_isCapable_self]
  rw [openPort_isPortOpen_self]
  rw [show (∀ (x : MMGDevice) (b : Bool), (x.setCapable .TYPE_INPUT b).isPortOpen .TYPE_OUTPUT =
        x.isPortOpen .TYPE_OUTPUT) from fun x b => rfl]
  rw [openPort_isPortOpen_other _ _ _ _ (by decide),
    closePort_isPortOpen_self, closePort_isPortOpen_other _ _ _ _ (by decide)]
  rfl

lemma probedDevice_isPortOpen_in (tr : Transport) (d : MMGDevice) :
    (probedDevice tr d).isPortOpen .TYPE_INPUT =
      (((d.ports.inOpen && !tr.inCloseOk) || tr.inOpenOk) && !tr.inCloseOk) := by
  unfold probedDevice
  rw [closePort_isPortOpen_other _ _ _ _ (by decide), closePort_isPortOpen_self]
  rw [show (∀ (x : MMGDevice) (b : Bool), (x.setCapable .TYPE_OUTPUT b).isPortOpen .TYPE_INPUT =
        x.isPortOpen .TYPE_INPUT) from fun x b => rfl]
  rw [openPort_isPortOpen_other _ _ _ _ (by decide)]
  rw [show (∀ (x : MMGDevice) (b : Bool), (x.setCapable .TYPE_INPUT b).isPortOpen .TYPE_INPUT =
        x.isPortOpen .TYPE_INPUT) from fun x b => rfl]
  rw [openPort_isPortOpen_self, closePort_isPortOpen_other _ _ _ _ (by decide),
    closePort_isPortOpen_self]
  rfl

lemma probedDevice_isPortOpen_out (tr : Transport) (d : MMGDevice) :
    (probedDevice tr d).isPortOpen .TYPE_OUTPUT =
      (((d.ports.outOpen && !tr.outCloseOk) || tr.outOpenOk) && !tr.outCloseOk) := by
  unfold probedDevice
  rw [closePort_isPortOpen_self, closePort_isPortOpen_other _ _ _ _ (by decide)]
  rw [show (∀ (x : MMGDevice) (b : Bool), (x.setCapable .TYPE_OUTPUT b).isPortOpen .TYPE_OUTPUT =
        x.isPortOpen .TYPE_OUTPUT) from fun x b => rfl]
  rw [openPort_isPortOpen_self]
  rw [show (∀ (x : MMGDevice) (b : Bool), (x.setCapable .TYPE_INPUT b).isPortOpen .TYPE_OUTPUT =
        x.isPortOpen .TYPE_OUTPUT) from fun x b => rfl]
  rw [openPort_isPortOpen_other _ _ _ _ (by decide),
    closePort_isPortOpen_self, closePort_isPortOpen_other _ _ _ _ (by decide)]
  rfl

-- ## Cascade event-list lemmas

lemma mem_refreshEventsFor (cond : MMGBinding → Bool) (ci : Nat) :
    ∀ (coll : List MMGBinding) (bi0 : Nat) (e : Event),
      e ∈ refreshEventsFor cond ci bi0 coll ↔
        ∃ k b, coll[k]? = some b ∧ cond b = true ∧ e = Event.refreshEv ci (bi0 + k) := by
  intro coll
  induction coll with
  | nil => intro bi0 e; simp [refreshEventsFor]
  | cons b0 rest ih =>
    intro bi0 e
    rw [refreshEventsFor, List.mem_append]
    constructor
    · rintro (h | h)
      · cases hc : cond b0 with
        | false => rw [hc] at h; simp at h
        | true =>
          rw [hc] at h
          simp only [List.mem_singleton] at h
          exact ⟨0, b0, by simp, hc, by simpa using h⟩
      · rcases (ih (bi0 + 1) e).1 h with ⟨k, b, hk, hcb, he⟩
        refine ⟨k + 1, b, by simpa using hk, hcb, ?_⟩
        rw [he]; congr 1; omega
    · rintro ⟨k, b, hk, hcb, he⟩
      cases k with
      | zero =>
        rw [List.getElem?_cons_zero] at hk
        injection hk with hk
        subst hk
        left
        rw [hcb]
        simp [he]
      | succ k' =>
        right
        refine (ih (bi0 + 1) e).2 ⟨k', b, by simpa using hk, hcb, ?_⟩
        rw [he]; congr 1; omega

lemma nodup_refreshEventsFor (cond : MMGBinding → Bool) (ci : Nat) :
    ∀ (coll : List MMGBinding) (bi0 : Nat), (refreshEventsFor cond ci bi0 coll).Nodup := by
  intro coll
  induction coll with
  | nil => intro bi0; simp [refreshEventsFor]
  | cons b0 rest ih =>
    intro bi0
    rw [refreshEventsFor, List.nodup_append]
    refine ⟨?_, ih (bi0 + 1), ?_⟩
    · cases cond b0 <;> simp
    · intro e he hmem
      cases hc : cond b0 with
      | false => rw [hc] at he; simp at he
      | true =>
        rw [hc] at he
        simp at he
        subst he
        rcases (mem_refreshEventsFor cond ci rest (bi0 + 1) _).1 hmem with ⟨k, b, _, _, he⟩
        have : bi0 = bi0 + 1 + k := by
          have := congrArg (fun ev => match ev with
            | Event.refreshEv _ y => y
            | _ => 0) he
          simpa using this
        omega

lemma mem_refreshEventsCfg (cond : MMGBinding → Bool) :
    ∀ (colls : List (List MMGBinding)) (ci0 : Nat) (e : Event),
      e ∈ refreshEventsCfg cond ci0 colls ↔
        ∃ j coll k b, colls[j]? = some coll ∧ coll[k]? = some b ∧ cond b = true ∧
          e = Event.refreshEv (ci0 + j) k := by
  intro colls
  induction colls with
  | nil => intro ci0 e; simp [refreshEventsCfg]
  | cons coll0 rest ih =>
    intro ci0 e
    rw [refreshEventsCfg, List.mem_append]
    constructor
    · rintro (h | h)
      · rcases (mem_refreshEventsFor cond ci0 coll0 0 e).1 h with ⟨k, b, hk, hcb, he⟩
        exact ⟨0, coll0, k, b, by simp, by simpa using hk, hcb, by simpa using he⟩
      · rcases (ih (ci0 + 1) e).1 h with ⟨j, coll, k, b, hj, hk, hcb, he⟩
        refine ⟨j + 1, coll, k, b, by simpa using hj, hk, hcb, ?_⟩
        rw [he]; congr 1; omega
    · rintro ⟨j, coll, k, b, hj, hk, hcb, he⟩
      cases j with
      | zero =>
        rw [List.getElem?_cons_zero] at hj
        injection hj with hj
        subst hj
        left
        exact (mem_refreshEventsFor cond ci0 coll0 0 e).2 ⟨k, b, hk, hcb, by simpa using he⟩
      | succ j' =>
        right
        refine (ih (ci0 + 1) e).2 ⟨j', coll, k, b, by simpa using hj, hk, hcb, ?_⟩
        rw [he]; congr 1; omega

lemma nodup_refreshEventsCfg (cond : MMGBinding → Bool) :
    ∀ (colls : List (List MMGBinding)) (ci0 : Nat), (refreshEventsCfg cond ci0 colls).Nodup := by
  intro colls
  induction colls with
  | nil => intro ci0; simp [refreshEventsCfg]
  | cons coll0 rest ih =>
    intro ci0
    rw [refreshEventsCfg, List.nodup_append]
    refine ⟨nodup_refreshEventsFor cond ci0 coll0 0, ih (ci0 + 1), ?_⟩
    intro e he hmem
    rcases (mem_refreshEventsFor cond ci0 coll0 0 e).1 he with ⟨k, b, _, _, he1⟩
    rcases (mem_refreshEventsCfg cond rest (ci0 + 1) e).1 hmem with ⟨j, coll, k', b', _, _, _, he2⟩
    rw [he1] at he2
    have : ci0 = ci0 + 1 + j := by
      have := congrArg (fun ev => match ev with
        | Event.refreshEv x _ => x
        | _ => 0) he2
      simpa using this
    omega

lemma refreshEventsCfg_all_refresh (cond : MMGBinding → Bool) (colls : List (List MMGBinding))
    (ci0 : Nat) (e : Event) (h : e ∈ refreshEventsCfg cond ci0 colls) :
    e.isRefreshEv = true := by
  rcases (mem_refreshEventsCfg cond colls ci0 e).1 h with ⟨_, _, _, _, _, _, _, he⟩
  rw [he]; rfl

lemma count_refreshEventsCfg (cond : MMGBinding → Bool) (colls : List (List MMGBinding))
    (ci bi : Nat) (coll : List MMGBinding) (b : MMGBinding)
    (hc : colls[ci]? = some coll) (hb : coll[bi]? = some b) :
    (refreshEventsCfg cond 0 colls).count (Event.refreshEv ci bi) =
      if cond b then 1 else 0 := by
  cases hcb : cond b with
  | true =>
    rw [if_pos rfl]
    refine List.count_eq_one_of_mem (nodup_refreshEventsCfg cond colls 0) ?_
    exact (mem_refreshEventsCfg cond colls 0 _).2 ⟨ci, coll, bi, b, hc, hb, hcb, by simp⟩
  | false =>
    rw [if_neg (by simp)]
    refine List.count_eq_zero_of_not_mem ?_
    intro hmem
    rcases (mem_refreshEventsCfg cond colls 0 _).1 hmem with ⟨j, coll', k, b', hj, hk, hcb', he⟩
    have hji : ci = j ∧ bi = k := by
      constructor
      · have := congrArg (fun ev => match ev with
          | Event.refreshEv x _ => x
          | _ => 0) he
        simpa using this
      · have := congrArg (fun ev => match ev with
          | Event.refreshEv _ y => y
          | _ => 0) he
        simpa using this
    rcases hji with ⟨h1, h2⟩
    subst h1; subst h2
    rw [hc] at hj; injection hj with hj; subst hj
    rw [hb] at hk; injection hk with hk; subst hk
    rw [hcb] at hcb'; cases hcb'

-- ## Further supporting lemmas for the claims

lemma setActive_fst_cfg (tr : Transport) (cfg cfg' : Option MMGConfig) (d : MMGDevice)
    (t : DeviceType) (want : Bool) :
    (d.setActive tr cfg t want).1 = (d.setActive tr cfg' t want).1 := by
  cases hg : (!d.editable || (d.isActive t == want) || !d.isCapable t) with
  | true => rw [setActive_noop tr cfg d t want hg, setActive_noop tr cfg' d t want hg]
  | false =>
    by_cases hp : (d.toggledDev tr t).isPortOpen t = d.isActive t
    · rw [setActive_err tr cfg d t want hg hp, setActive_err tr cfg' d t want hg hp]
    · have hp' : (d.toggledDev tr t).isPortOpen t = !d.isActive t := by
        cases h1 : (d.toggledDev tr t).isPortOpen t <;> cases h2 : d.isActive t <;>
          simp_all
      rw [setActive_ok tr cfg d t want hg hp', setActive_ok tr cfg' d t want hg hp']

lemma prompt_not_mem_activation (cfg : Option MMGConfig) (name s : String) :
    Event.promptUser s ∉ activationRefreshEvents cfg name := by
  cases cfg with
  | none => simp [activationRefreshEvents]
  | some c =>
    intro h
    have hr := refreshEventsCfg_all_refresh _ _ _ _ h
    simp [Event.isRefreshEv] at hr

lemma isRefreshEv_prompt (s : String) : (Event.promptUser s).isRefreshEv = false := rfl

-- ## Claim theorems

/-- C10: when the global config (ReferenceGraph root) is unavailable,
every cascade degrades to a no-op: `setActive` computes exactly the
device state it would compute under any config (so the port toggle and
the active-bit flip still happen) but emits no binding refresh, and
`updateDeviceReferences` / `refreshBindingsForDevice` return without
touching any message or binding. -/
theorem C10_null_config_degrades :
    (∀ (tr : Transport) (d : MMGDevice) (t : DeviceType) (want : Bool)
        (cfg₂ : Option MMGConfig),
        (d.setActive tr none t want).1 = (d.setActive tr cfg₂ t want).1
          ∧ ((d.setActive tr none t want).2.any Event.isRefreshEv) = false)
    ∧ (∀ dn nn, MMGDeviceManager.updateDeviceReferences none dn nn = (none, []))
    ∧ (∀ dn, MMGDeviceManager.refreshBindingsForDevice none dn = []) := by
  refine ⟨?_, fun dn nn => rfl, fun dn => rfl⟩
  intro tr d t want cfg₂
  refine ⟨setActive_fst_cfg tr none cfg₂ d t want, ?_⟩
  rcases setActive_cases tr none d t want with h | h | h <;> rw [h]
  · rfl
  · simp [List.any_cons, toggleEvent_not_refresh, isRefreshEv_prompt]
  · cases want
    · simp [List.any_cons, toggleEvent_not_refresh]
    · simp [activationRefreshEvents, List.any_cons, toggleEvent_not_refresh]

/-- C8: `setActive(t, want)` returns immediately, with no transport
operation, no state change and no reported error, when the device is not
editable, or the requested state equals the current one (idempotence),
or the device is not capable of the direction. -/
theorem C8_noop_guard (tr : Transport) (cfg : Option MMGConfig) (d : MMGDevice)
    (t : DeviceType) (want : Bool)
    (h : d.editable = false ∨ want = d.isActive t ∨ d.isCapable t = false) :
    d.setActive tr cfg t want = (d, []) := by
  apply setActive_noop
  rcases h with h | h | h
  · simp [h]
  · rw [h]; simp
  · simp [h]

/-- Witness for C8: requesting Input activation on a device that is not
Input-capable is a visible no-op. -/
theorem C8_noop_guard_witness :
    MMGDevice.setActive trOK (some cfgA) devNoCap .TYPE_INPUT true = (devNoCap, []) :=
  C8_noop_guard trOK (some cfgA) devNoCap .TYPE_INPUT true (Or.inr (Or.inr (by decide)))

/-- C9: a `setActive` call changes at most the single active bit of the
requested direction — the active mask is unchanged or XOR-ed with that
direction's bit, the other direction's active bit, the capability mask,
the thru string and the device name are all preserved, in every branch
(no-op, success, or `PortOpenError`). -/
theorem C9_setActive_frame (tr : Transport) (cfg : Option MMGConfig) (d : MMGDevice)
    (t : DeviceType) (want : Bool) :
    ((d.setActive tr cfg t want).1._active = d._active
       ∨ (d.setActive tr cfg t want).1._active = d._active ^^^ t.bit)
    ∧ (d.setActive tr cfg t want).1.isActive t.other = d.isActive t.other
    ∧ (d.setActive tr cfg t want).1.capable = d.capable
    ∧ (d.setActive tr cfg t want).1._thru = d._thru
    ∧ (d.setActive tr cfg t want).1.objectName = d.objectName := by
  refine ⟨?_, ?_, setActive_capable tr cfg d t want, setActive_thru tr cfg d t want,
    setActive_name tr cfg d t want⟩
  · rcases setActive_cases tr cfg d t want with h | h | h <;> rw [h]
    · exact Or.inl rfl
    · exact Or.inl (toggledDev_active tr d t)
    · right
      show (d.toggledDev tr t)._active ^^^ t.bit = d._active ^^^ t.bit
      rw [toggledDev_active]
  · rcases setActive_cases tr cfg d t want with h | h | h <;> rw [h]
    · exact toggledDev_isActive tr d t t.other
    · rw [MMGDevice.isActive_testBit, MMGDevice.isActive_testBit]
      show ((d.toggledDev tr t)._active ^^^ t.bit).testBit t.other.bitIdx =
        d._active.testBit t.other.bitIdx
      rw [toggledDev_active, xor_devBit_testBit]
      have hne : ¬(t.other.bitIdx = t.bitIdx) := by rw [bitIdx_inj]; exact other_ne t
      simp [hne]

/-- C4 fails as stated: on a concrete device the probe's transport calls
are close-Input, close-Output, open-Input, open-Output, close-Input,
close-Output — Input is *not* closed again before Output is opened (the
claimed order differs), and both directions are open simultaneously
between the two opens and the final closes. -/
theorem C4_probe_order_counterexample :
    (devA.checkCapable trOK none).2.take 6 ≠ claimedProbeTrace
      ∧ (devA.checkCapable trOK none).2.take 6 = probeEvsList := by decide

/-- C4 (amended): `checkCapable` probes by closing both directions, then
opening Input and recording the resulting port state as the Input
capability, then opening Output (without first closing Input, so both
directions can be open at once mid-probe) and recording the Output
capability, then closing both directions. -/
theorem C4_probe_order_amended (tr : Transport) (cfg : Option MMGConfig) (d : MMGDevice) :
    (d.checkCapable tr cfg).2.take 6 = probeEvsList
    ∧ (d.checkCapable tr cfg).1.isCapable .TYPE_INPUT =
        ((d.ports.inOpen && !tr.inCloseOk) || tr.inOpenOk)
    ∧ (d.checkCapable tr cfg).1.isCapable .TYPE_OUTPUT =
        ((d.ports.outOpen && !tr.outCloseOk) || tr.outOpenOk) := by
  refine ⟨rfl, ?_, ?_⟩
  · have h1 : (d.checkCapable tr cfg).1 =
        (((probedDevice tr d).setActive tr cfg .TYPE_INPUT
            (d._active &&& 1 != 0)).1.setActive tr cfg .TYPE_OUTPUT
          (d._active &&& 2 != 0)).1 := rfl
    rw [h1, MMGDevice.isCapable_testBit, setActive_capable, setActive_capable,
      ← MMGDevice.isCapable_testBit, probedDevice_isCapable_in]
  · have h1 : (d.checkCapable tr cfg).1 =
        (((probedDevice tr d).setActive tr cfg .TYPE_INPUT
            (d._active &&& 1 != 0)).1.setActive tr cfg .TYPE_OUTPUT
          (d._active &&& 2 != 0)).1 := rfl
    rw [h1, MMGDevice.isCapable_testBit, setActive_capable, setActive_capable,
      ← MMGDevice.isCapable_testBit, probedDevice_isCapable_out]

/-- C1 fails as stated: for a device that is not capable of the
direction, `setActive(Input, true)` returns without any `PortOpenError`
yet leaves the direction inactive (the silent no-op guard). -/
theorem C1_counterexample :
    Event.promptUser "PortOpenError" ∉ (devNoCap.setActive trOK none .TYPE_INPUT true).2
      ∧ (devNoCap.setActive trOK none .TYPE_INPUT true).1.isActive .TYPE_INPUT = false := by
  decide

/-- C1 (amended): for every device and direction `t`, if the device is
editable, capable of `t` and not already active there, then a
`setActive(t, true)` call that returns without reporting a
`PortOpenError` ends with the direction active and the transport
reporting the port open; and — for every device and every requested
state — whenever a `setActive` call reports a `PortOpenError`, the
active mask is left exactly as it was and no binding refresh runs. -/
theorem C1_setActive_true_spec (tr : Transport) (cfg : Option MMGConfig) (d : MMGDevice)
    (t : DeviceType) :
    (d.editable = true → d.isCapable t = true → d.isActive t = false →
      Event.promptUser "PortOpenError" ∉ (d.setActive tr cfg t true).2 →
        (d.setActive tr cfg t true).1.isActive t = true
          ∧ (d.setActive tr cfg t true).1.isPortOpen t = true)
    ∧ (∀ want : Bool, Event.promptUser "PortOpenError" ∈ (d.setActive tr cfg t want).2 →
        (d.setActive tr cfg t want).1._active = d._active
          ∧ ((d.setActive tr cfg t want).2.any Event.isRefreshEv) = false) := by
  constructor
  · intro hEd hCap hAct
    have hg : (!d.editable || (d.isActive t == true) || !d.isCapable t) = false := by
      rw [hEd, hCap, hAct]; rfl
    intro hnp
    cases hpo : (d.toggledDev tr t).isPortOpen t with
    | false =>
      exfalso
      apply hnp
      rw [setActive_err tr cfg d t true hg (by rw [hpo, hAct])]
      simp
    | true =>
      rw [setActive_ok tr cfg d t true hg (by rw [hpo, hAct]; rfl)]
      constructor
      · rw [MMGDevice.isActive_testBit]
        show ((d.toggledDev tr t)._active ^^^ t.bit).testBit t.bitIdx = true
        rw [toggledDev_active, xor_devBit_testBit]
        rw [MMGDevice.isActive_testBit] at hAct
        simp [hAct]
      · show (d.toggledDev tr t).isPortOpen t = true
        exact hpo
  · intro want hp
    rcases setActive_cases tr cfg d t want with h | h | h <;> rw [h] at hp ⊢
    · simp at hp
    · exact ⟨toggledDev_active tr d t,
        by simp [List.any_cons, toggleEvent_not_refresh, isRefreshEv_prompt]⟩
    · exfalso
      rcases List.mem_cons.1 hp with h1 | h1
      · exact toggleEvent_ne_prompt d t _ h1.symm
      · cases want
        · simp at h1
        · exact prompt_not_mem_activation cfg d.objectName _ (by simpa using h1)

/-- Witness for C1's amended theorem: activating Input on a capable,
editable, inactive device with a working transport ends active with the
port open. -/
theorem C1_setActive_true_spec_witness :
    (devA.setActive trOK (some cfgA) .TYPE_INPUT true).1.isActive .TYPE_INPUT = true
      ∧ (devA.setActive trOK (some cfgA) .TYPE_INPUT true).1.isPortOpen .TYPE_INPUT = true :=
  (C1_setActive_true_spec trOK (some cfgA) devA .TYPE_INPUT).1 rfl (by decide) (by decide)
    (by decide)

lemma setActive_cases_full (tr : Transport) (cfg : Option MMGConfig) (d : MMGDevice)
    (t : DeviceType) (want : Bool) :
    ((!d.editable || (d.isActive t == want) || !d.isCapable t) = true
       ∧ d.setActive tr cfg t want = (d, []))
    ∨ ((!d.editable || (d.isActive t == want) || !d.isCapable t) = false
       ∧ (d.toggledDev tr t).isPortOpen t = d.isActive t
       ∧ d.setActive tr cfg t want =
          (d.toggledDev tr t, [d.toggleEvent t, Event.promptUser "PortOpenError"]))
    ∨ ((!d.editable || (d.isActive t == want) || !d.isCapable t) = false
       ∧ (d.toggledDev tr t).isPortOpen t = !d.isActive t
       ∧ d.setActive tr cfg t want =
          ({ d.toggledDev tr t with _active := (d.toggledDev tr t)._active ^^^ t.bit },
           d.toggleEvent t ::
             (if want then activationRefreshEvents cfg d.objectName else []))) := by
  cases hg : (!d.editable || (d.isActive t == want) || !d.isCapable t) with
  | true => exact Or.inl ⟨rfl, setActive_noop tr cfg d t want hg⟩
  | false =>
    by_cases hp : (d.toggledDev tr t).isPortOpen t = d.isActive t
    · exact Or.inr (Or.inl ⟨rfl, hp, setActive_err tr cfg d t want hg hp⟩)
    · have hp' : (d.toggledDev tr t).isPortOpen t = !d.isActive t := by
        cases h1 : (d.toggledDev tr t).isPortOpen t <;> cases h2 : d.isActive t <;>
          simp_all
      exact Or.inr (Or.inr ⟨rfl, hp', setActive_ok tr cfg d t want hg hp'⟩)

lemma activationRefreshEvents_some (c : MMGConfig) (name : String) :
    activationRefreshEvents (some c) name =
      refreshEventsCfg (bindingFirstMatches name) 0 c.collections := rfl

lemma toggleEvent_beq_refresh (d : MMGDevice) (t : DeviceType) (ci bi : Nat) :
    (d.toggleEvent t == Event.refreshEv ci bi) = false := by
  rcases toggleEvent_cases d t with h | h <;> rw [h] <;> simp

lemma flipped_isActive_self (tr : Transport) (d : MMGDevice) (t : DeviceType) :
    ({ d.toggledDev tr t with _active := (d.toggledDev tr t)._active ^^^ t.bit } :
        MMGDevice).isActive t = !d.isActive t := by
  rw [MMGDevice.isActive_testBit]
  show ((d.toggledDev tr t)._active ^^^ t.bit).testBit t.bitIdx = !d.isActive t
  rw [toggledDev_active, xor_devBit_testBit, MMGDevice.isActive_testBit]
  simp

/-- C2: a `setActive` call that transitions a direction to active (and
only such a call — never a deactivation, a failed call, or a no-op)
refreshes exactly once every binding of the ReferenceGraph whose *first*
message names this device, and refreshes no binding whose first message
names another device, even when a later message of it names this one. -/
theorem C2_activation_cascade (tr : Transport) (cfg : Option MMGConfig) (d : MMGDevice)
    (t : DeviceType) (want : Bool) :
    (d.isActive t = false → (d.setActive tr cfg t want).1.isActive t = true →
      ∀ (c : MMGConfig) (ci bi : Nat) (coll : List MMGBinding) (b : MMGBinding),
        cfg = some c → c.collections[ci]? = some coll → coll[bi]? = some b →
          ((d.setActive tr cfg t want).2.count (Event.refreshEv ci bi)) =
            (if bindingFirstMatches d.objectName b then 1 else 0))
    ∧ ((d.isActive t = true ∨ (d.setActive tr cfg t want).1.isActive t = false) →
        ((d.setActive tr cfg t want).2.any Event.isRefreshEv) = false) := by
  constructor
  · intro hAct hAct' c ci bi coll b hcfg hc hb
    subst hcfg
    rcases setActive_cases_full tr (some c) d t want with ⟨hg, h⟩ | ⟨hg, hpo, h⟩ |
      ⟨hg, hpo, h⟩
    · rw [h] at hAct'
      have h2 : d.isActive t = true := hAct'
      rw [hAct] at h2
      exact Bool.noConfusion h2
    · rw [h] at hAct'
      have h2 : (d.toggledDev tr t).isActive t = true := hAct'
      rw [toggledDev_isActive, hAct] at h2
      exact Bool.noConfusion h2
    · have hwant : want = true := by
        cases hw : want
        · rw [hw, hAct] at hg
          simp at hg
        · rfl
      subst hwant
      rw [h, if_pos rfl, List.count_cons, activationRefreshEvents_some,
        count_refreshEventsCfg (bindingFirstMatches d.objectName) c.collections ci bi coll b
          hc hb, toggleEvent_beq_refresh]
      simp
  · intro hcase
    rcases setActive_cases_full tr cfg d t want with ⟨hg, h⟩ | ⟨hg, hpo, h⟩ | ⟨hg, hpo, h⟩ <;>
      rw [h]
    · rfl
    · simp [List.any_cons, toggleEvent_not_refresh, isRefreshEv_prompt]
    · cases hw : want
      · simp [List.any_cons, toggleEvent_not_refresh]
      · exfalso
        rw [hw] at hg
        rcases hcase with hc1 | hc2
        · rw [hc1] at hg
          simp at hg
        · rw [h] at hc2
          have h2 : (!d.isActive t) = false := (flipped_isActive_self tr d t).symm.trans hc2
          have h3 : d.isActive t = true := by
            cases hxx : d.isActive t
            · rw [hxx] at h2; exact Bool.noConfusion h2
            · rfl
          rw [h3] at hg
          simp at hg

/-- Witness for C2: activating Input on device "A" refreshes the binding
whose first message names "A" exactly once, and does not refresh the
binding whose first message names "B" even though its second message
names "A". -/
theorem C2_activation_cascade_witness :
    ((devA.setActive trOK (some cfgA) .TYPE_INPUT true).2.count (Event.refreshEv 0 0)) = 1
      ∧ ((devA.setActive trOK (some cfgA) .TYPE_INPUT true).2.count (Event.refreshEv 0 1)) = 0 := by
  constructor
  · exact ((C2_activation_cascade trOK (some cfgA) devA .TYPE_INPUT true).1 (by decide)
      (by decide) cfgA 0 0 [⟨[⟨"A", none⟩]⟩, ⟨[⟨"B", none⟩, ⟨"A", none⟩]⟩] ⟨[⟨"A", none⟩]⟩
      rfl (by decide) (by decide)).trans (by decide)
  · exact ((C2_activation_cascade trOK (some cfgA) devA .TYPE_INPUT true).1 (by decide)
      (by decide) cfgA 0 1 [⟨[⟨"A", none⟩]⟩, ⟨[⟨"B", none⟩, ⟨"A", none⟩]⟩]
      ⟨[⟨"B", none⟩, ⟨"A", none⟩]⟩ rfl (by decide) (by decide)).trans (by decide)

lemma probed_isActive_false (tr : Transport) (d : MMGDevice) (t : DeviceType) :
    (probedDevice tr d).isActive t = false := by
  rw [MMGDevice.isActive_testBit, probedDevice_active]
  simp [Nat.zero_testBit]

lemma toggledDev_of_inactive (tr : Transport) (d : MMGDevice) (t : DeviceType)
    (h : d.isActive t = false) : d.toggledDev tr t = d.openPort tr t := by
  unfold MMGDevice.toggledDev
  rw [h]
  rfl

lemma toggledDev_isPortOpen_other (tr : Transport) (d : MMGDevice) (t t' : DeviceType)
    (h : t' ≠ t) : (d.toggledDev tr t).isPortOpen t' = d.isPortOpen t' := by
  unfold MMGDevice.toggledDev
  split
  · exact openPort_isPortOpen_other tr d t t' h
  · exact closePort_isPortOpen_other tr d t t' h

lemma setActive_isActive_other (tr : Transport) (cfg : Option MMGConfig) (d : MMGDevice)
    (t : DeviceType) (want : Bool) (t' : DeviceType) (h : t' ≠ t) :
    (d.setActive tr cfg t want).1.isActive t' = d.isActive t' := by
  rcases setActive_cases tr cfg d t want with hh | hh | hh <;> rw [hh]
  · exact toggledDev_isActive tr d t t'
  · rw [MMGDevice.isActive_testBit, MMGDevice.isActive_testBit]
    show ((d.toggledDev tr t)._active ^^^ t.bit).testBit t'.bitIdx =
      d._active.testBit t'.bitIdx
    rw [toggledDev_active, xor_devBit_testBit]
    have hne : ¬(t'.bitIdx = t.bitIdx) := by rw [bitIdx_inj]; exact h
    simp [hne]

lemma setActive_isPortOpen_other (tr : Transport) (cfg : Option MMGConfig) (d : MMGDevice)
    (t : DeviceType) (want : Bool) (t' : DeviceType) (h : t' ≠ t) :
    (d.setActive tr cfg t want).1.isPortOpen t' = d.isPortOpen t' := by
  rcases setActive_cases tr cfg d t want with hh | hh | hh <;> rw [hh]
  · exact toggledDev_isPortOpen_other tr d t t' h
  · show (d.toggledDev tr t).isPortOpen t' = d.isPortOpen t'
    exact toggledDev_isPortOpen_other tr d t t' h

lemma setActive_isCapable (tr : Transport) (cfg : Option MMGConfig) (d : MMGDevice)
    (t : DeviceType) (want : Bool) (t' : DeviceType) :
    (d.setActive tr cfg t want).1.isCapable t' = d.isCapable t' := by
  rw [MMGDevice.isCapable_testBit, MMGDevice.isCapable_testBit, setActive_capable]

/-- C6 fails as stated: for a non-editable device, `checkCapable` clears
the active mask directly but restores it through the `setActive` guard,
which rejects non-editable devices — a previously active, still capable
direction ends inactive. -/
theorem C6_counterexample :
    (({ devA with _active := 1, editable := false } : MMGDevice).isActive .TYPE_INPUT = true)
      ∧ (({ devA with _active := 1, editable := false } :
            MMGDevice).checkCapable trOK none).1.isCapable .TYPE_INPUT = true
      ∧ (({ devA with _active := 1, editable := false } :
            MMGDevice).checkCapable trOK none).1.isActive .TYPE_INPUT = false := by
  decide

/-- C6 (amended): for an *editable* device, after `checkCapable`
returns, every direction that was active before and is found capable by
the probe is active again; every direction that was active before but is
found non-capable ends inactive; and every direction that was inactive
before remains inactive. -/
theorem C6_checkCapable_restores (tr : Transport) (cfg : Option MMGConfig) (d : MMGDevice)
    (hEd : d.editable = true) (t : DeviceType) :
    (d.isActive t = true → (d.checkCapable tr cfg).1.isCapable t = true →
        (d.checkCapable tr cfg).1.isActive t = true)
    ∧ (d.isActive t = true → (d.checkCapable tr cfg).1.isCapable t = false →
        (d.checkCapable tr cfg).1.isActive t = false)
    ∧ (d.isActive t = false → (d.checkCapable tr cfg).1.isActive t = false) := by
  have hchk : (d.checkCapable tr cfg).1 =
      (((probedDevice tr d).setActive tr cfg .TYPE_INPUT
          (d._active &&& 1 != 0)).1.setActive tr cfg .TYPE_OUTPUT
        (d._active &&& 2 != 0)).1 := rfl
  have hfc : ∀ t', (d.checkCapable tr cfg).1.isCapable t' = (probedDevice tr d).isCapable t' := by
    intro t'
    rw [hchk, setActive_isCapable, setActive_isCapable]
  cases t with
  | TYPE_INPUT =>
    refine ⟨?_, ?_, ?_⟩
    · intro hact hcap
      rw [hfc] at hcap
      have hw0 : (d._active &&& 1 != 0) = true := hact
      have hg : (!(probedDevice tr d).editable
          || ((probedDevice tr d).isActive .TYPE_INPUT == true)
          || !(probedDevice tr d).isCapable .TYPE_INPUT) = false := by
        rw [probedDevice_editable, hEd, probed_isActive_false, hcap]
        rfl
      have hpo : ((probedDevice tr d).toggledDev tr .TYPE_INPUT).isPortOpen .TYPE_INPUT
          = true := by
        rw [toggledDev_of_inactive tr _ _ (probed_isActive_false tr d .TYPE_INPUT),
          openPort_isPortOpen_self, probedDevice_isPortOpen_in]
        rw [probedDevice_isCapable_in] at hcap
        cases h1 : d.ports.inOpen <;> cases h2 : tr.inCloseOk <;> cases h3 : tr.inOpenOk <;>
          simp_all [Transport.openOk]
      have hr1 : (probedDevice tr d).setActive tr cfg .TYPE_INPUT true =
          ({ (probedDevice tr d).toggledDev tr .TYPE_INPUT with
              _active := ((probedDevice tr d).toggledDev tr .TYPE_INPUT)._active ^^^
                DeviceType.bit .TYPE_INPUT },
           (probedDevice tr d).toggleEvent .TYPE_INPUT ::
             (if true then activationRefreshEvents cfg (probedDevice tr d).objectName
              else [])) :=
        setActive_ok tr cfg _ _ true hg
          (by rw [hpo, probed_isActive_false]; rfl)
      rw [hchk, setActive_isActive_other _ _ _ _ _ _ (by decide), hw0, hr1,
        flipped_isActive_self, probed_isActive_false]
      rfl
    · intro hact hcap
      rw [hfc] at hcap
      have hw0 : (d._active &&& 1 != 0) = true := hact
      have hg : (!(probedDevice tr d).editable
          || ((probedDevice tr d).isActive .TYPE_INPUT == true)
          || !(probedDevice tr d).isCapable .TYPE_INPUT) = true := by
        rw [probedDevice_editable, hEd, probed_isActive_false, hcap]
        rfl
      rw [hchk, setActive_isActive_other _ _ _ _ _ _ (by decide), hw0,
        setActive_noop tr cfg _ _ true hg]
      exact probed_isActive_false tr d .TYPE_INPUT
    · intro hact
      have hw0 : (d._active &&& 1 != 0) = false := hact
      have hg : (!(probedDevice tr d).editable
          || ((probedDevice tr d).isActive .TYPE_INPUT == false)
          || !(probedDevice tr d).isCapable .TYPE_INPUT) = true := by
        rw [probedDevice_editable, hEd, probed_isActive_false]
        simp
      rw [hchk, setActive_isActive_other _ _ _ _ _ _ (by decide), hw0,
        setActive_noop tr cfg _ _ false hg]
      exact probed_isActive_false tr d .TYPE_INPUT
  | TYPE_OUTPUT =>
    have hact1 : ((probedDevice tr d).setActive tr cfg .TYPE_INPUT
        (d._active &&& 1 != 0)).1.isActive .TYPE_OUTPUT = false := by
      rw [setActive_isActive_other _ _ _ _ _ _ (by decide)]
      exact probed_isActive_false tr d .TYPE_OUTPUT
    have hcap1 : ∀ b : Bool, ((probedDevice tr d).setActive tr cfg .TYPE_INPUT
        (d._active &&& 1 != 0)).1.isCapable .TYPE_OUTPUT = (probedDevice tr d).isCapable .TYPE_OUTPUT :=
      fun _ => setActive_isCapable tr cfg _ _ _ _
    have hed1 : ((probedDevice tr d).setActive tr cfg .TYPE_INPUT
        (d._active &&& 1 != 0)).1.editable = true := by
      rw [setActive_editable, probedDevice_editable, hEd]
    refine ⟨?_, ?_, ?_⟩
    · intro hact hcap
      rw [hfc] at hcap
      have hw1 : (d._active &&& 2 != 0) = true := hact
      have hg : (!((probedDevice tr d).setActive tr cfg .TYPE_INPUT
            (d._active &&& 1 != 0)).1.editable
          || (((probedDevice tr d).setActive tr cfg .TYPE_INPUT
              (d._active &&& 1 != 0)).1.isActive .TYPE_OUTPUT == true)
          || !((probedDevice tr d).setActive tr cfg .TYPE_INPUT
              (d._active &&& 1 != 0)).1.isCapable .TYPE_OUTPUT) = false := by
        rw [hed1, hact1, hcap1 true, hcap]
        rfl
      have hpo : (((probedDevice tr d).setActive tr cfg .TYPE_INPUT
            (d._active &&& 1 != 0)).1.toggledDev tr .TYPE_OUTPUT).isPortOpen .TYPE_OUTPUT
            = true := by
        rw [toggledDev_of_inactive tr _ _ hact1, openPort_isPortOpen_self,
          setActive_isPortOpen_other _ _ _ _ _ _ (by decide),
          probedDevice_isPortOpen_out]
        rw [probedDevice_isCapable_out] at hcap
        cases h1 : d.ports.outOpen <;> cases h2 : tr.outCloseOk <;> cases h3 : tr.outOpenOk <;>
          simp_all [Transport.openOk]
      have hr2 := setActive_ok tr cfg
        ((probedDevice tr d).setActive tr cfg .TYPE_INPUT (d._active &&& 1 != 0)).1
        .TYPE_OUTPUT true hg (by rw [hpo, hact1]; rfl)
      rw [hchk, hw1, hr2, flipped_isActive_self, hact1]
      rfl
    · intro hact hcap
      rw [hfc] at hcap
      have hw1 : (d._active &&& 2 != 0) = true := hact
      have hg : (!((probedDevice tr d).setActive tr cfg .TYPE_INPUT
            (d._active &&& 1 != 0)).1.editable
          || (((probedDevice tr d).setActive tr cfg .TYPE_INPUT
              (d._active &&& 1 != 0)).1.isActive .TYPE_OUTPUT == true)
          || !((probedDevice tr d).setActive tr cfg .TYPE_INPUT
              (d._active &&& 1 != 0)).1.isCapable .TYPE_OUTPUT) = true := by
        rw [hed1, hact1, hcap1 true, hcap]
        rfl
      rw [hchk, hw1, setActive_noop tr cfg _ _ true hg]
      exact hact1
    · intro hact
      have hw1 : (d._active &&& 2 != 0) = false := hact
      have hg : (!((probedDevice tr d).setActive tr cfg .TYPE_INPUT
            (d._active &&& 1 != 0)).1.editable
          || (((probedDevice tr d).setActive tr cfg .TYPE_INPUT
              (d._active &&& 1 != 0)).1.isActive .TYPE_OUTPUT == false)
          || !((probedDevice tr d).setActive tr cfg .TYPE_INPUT
              (d._active &&& 1 != 0)).1.isCapable .TYPE_OUTPUT) = true := by
        rw [hed1, hact1]
        simp
      rw [hchk, hw1, setActive_noop tr cfg _ _ false hg]
      exact hact1

/-- Witness for C6's amended theorem: an editable device, active on
Input, found capable, is active on Input again after `checkCapable`. -/
theorem C6_checkCapable_restores_witness :
    (({ devA with _active := 1 } : MMGDevice).checkCapable trOK none).1.isActive
      .TYPE_INPUT = true :=
  (C6_checkCapable_restores trOK none { devA with _active := 1 } rfl .TYPE_INPUT).1
    (by decide) (by decide)

-- ## `update` and round-trip lemmas

lemma toggledDev_of_active (tr : Transport) (d : MMGDevice) (t : DeviceType)
    (h : d.isActive t = true) : d.toggledDev tr t = d.closePort tr t := by
  unfold MMGDevice.toggledDev
  rw [h]
  rfl

lemma setActive_achieves (tr : Transport) (cfg : Option MMGConfig) (d : MMGDevice)
    (t : DeviceType) (want : Bool) (hEd : d.editable = true)
    (h : toggleSucceeds tr d t want = true) :
    (d.setActive tr cfg t want).1.isActive t = want := by
  unfold toggleSucceeds at h
  by_cases heq : d.isActive t = want
  · rw [setActive_noop tr cfg d t want (by rw [heq]; simp)]
    exact heq
  · have hbe : (d.isActive t == want) = false := by
      cases h1 : d.isActive t <;> cases h2 : want <;> simp_all
    rw [hbe] at h
    simp only [Bool.false_eq_true, if_false, Bool.and_eq_true] at h
    obtain ⟨hcap, htog⟩ := h
    have hg : (!d.editable || (d.isActive t == want) || !d.isCapable t) = false := by
      rw [hEd, hcap, hbe]
      rfl
    cases hw : want with
    | false =>
      rw [hw] at heq htog hg
      have hact : d.isActive t = true := by
        cases h1 : d.isActive t
        · exact absurd h1 heq
        · rfl
      simp only [Bool.false_eq_true, if_false, Bool.not_eq_true'] at htog
      have hpo : (d.toggledDev tr t).isPortOpen t = false := by
        rw [toggledDev_of_active tr d t hact, closePort_isPortOpen_self]
        exact htog
      rw [setActive_ok tr cfg d t false hg (by rw [hpo, hact]; rfl),
        flipped_isActive_self, hact]
      rfl
    | true =>
      rw [hw] at heq htog hg
      simp only [if_pos rfl] at htog
      have hact : d.isActive t = false := by
        cases h1 : d.isActive t
        · rfl
        · exact absurd h1 heq
      have hpo : (d.toggledDev tr t).isPortOpen t = true := by
        rw [toggledDev_of_inactive tr d t hact, openPort_isPortOpen_self]
        exact htog
      rw [setActive_ok tr cfg d t true hg (by rw [hpo, hact]; rfl),
        flipped_isActive_self, hact]
      rfl

lemma setActive_active_testBit_other (tr : Transport) (cfg : Option MMGConfig)
    (d : MMGDevice) (t : DeviceType) (want : Bool) (i : Nat) (h : ¬(i = t.bitIdx)) :
    (d.setActive tr cfg t want).1._active.testBit i = d._active.testBit i := by
  rcases setActive_cases tr cfg d t want with hh | hh | hh <;> rw [hh]
  · rw [toggledDev_active]
  · show ((d.toggledDev tr t)._active ^^^ t.bit).testBit i = d._active.testBit i
    rw [toggledDev_active, xor_devBit_testBit]
    simp [h]

lemma toggleSucceeds_after_input (tr : Transport) (cfg : Option MMGConfig) (d : MMGDevice)
    (w0 want : Bool) :
    toggleSucceeds tr ((d.setActive tr cfg .TYPE_INPUT w0).1) .TYPE_OUTPUT want =
      toggleSucceeds tr d .TYPE_OUTPUT want := by
  unfold toggleSucceeds
  rw [setActive_isActive_other _ _ _ _ _ _ (by decide),
    setActive_isCapable, setActive_isPortOpen_other _ _ _ _ _ _ (by decide)]

lemma update_fst (tr : Transport) (cfg : Option MMGConfig) (d : MMGDevice)
    (json_obj : QJsonObject) :
    (d.update tr cfg json_obj).1 =
      { ((d.setActive tr cfg .TYPE_INPUT (json_obj.active &&& 1 != 0)).1.setActive tr cfg
          .TYPE_OUTPUT (json_obj.active &&& 2 != 0)).1 with
        _thru := json_obj.thru.getD "" } := by
  unfold MMGDevice.update
  cases h0 : (json_obj.active &&& 1 != 0) <;> cases h1 : (json_obj.active &&& 2 != 0) <;>
    simp only [h0, h1] <;> rfl

lemma update_events (tr : Transport) (cfg : Option MMGConfig) (d : MMGDevice)
    (json_obj : QJsonObject) :
    (d.update tr cfg json_obj).2 =
      (d.setActive tr cfg .TYPE_INPUT (json_obj.active &&& 1 != 0)).2 ++
      ((d.setActive tr cfg .TYPE_INPUT (json_obj.active &&& 1 != 0)).1.setActive tr cfg
        .TYPE_OUTPUT (json_obj.active &&& 2 != 0)).2 := by
  unfold MMGDevice.update
  cases h0 : (json_obj.active &&& 1 != 0) <;> cases h1 : (json_obj.active &&& 2 != 0) <;>
    simp only [h0, h1] <;> rfl

lemma update_name (tr : Transport) (cfg : Option MMGConfig) (d : MMGDevice)
    (json_obj : QJsonObject) :
    (d.update tr cfg json_obj).1.objectName = d.objectName := by
  rw [update_fst]
  show ((d.setActive tr cfg .TYPE_INPUT (json_obj.active &&& 1 != 0)).1.setActive tr cfg
      .TYPE_OUTPUT (json_obj.active &&& 2 != 0)).1.objectName = d.objectName
  rw [setActive_name, setActive_name]

/-- The outcome of `MMGDevice::update` when the device is editable and
both direction toggles can reach the record's requested state. -/
lemma update_spec (tr : Transport) (cfg : Option MMGConfig) (d : MMGDevice)
    (json_obj : QJsonObject) (hEd : d.editable = true)
    (hIn : toggleSucceeds tr d .TYPE_INPUT (json_obj.active &&& 1 != 0) = true)
    (hOut : toggleSucceeds tr d .TYPE_OUTPUT (json_obj.active &&& 2 != 0) = true) :
    (d.update tr cfg json_obj).1.isActive .TYPE_INPUT = (json_obj.active &&& 1 != 0)
    ∧ (d.update tr cfg json_obj).1.isActive .TYPE_OUTPUT = (json_obj.active &&& 2 != 0)
    ∧ (∀ i, 2 ≤ i → (d.update tr cfg json_obj).1._active.testBit i = d._active.testBit i)
    ∧ (d.update tr cfg json_obj).1._thru = json_obj.thru.getD ""
    ∧ (d.update tr cfg json_obj).1.objectName = d.objectName := by
  have hu := update_fst tr cfg d json_obj
  have hEd1 : (d.setActive tr cfg .TYPE_INPUT (json_obj.active &&& 1 != 0)).1.editable
      = true := by rw [setActive_editable]; exact hEd
  refine ⟨?_, ?_, ?_, ?_, ?_⟩
  · rw [hu]
    show ((d.setActive tr cfg .TYPE_INPUT (json_obj.active &&& 1 != 0)).1.setActive tr cfg
        .TYPE_OUTPUT (json_obj.active &&& 2 != 0)).1.isActive .TYPE_INPUT = _
    rw [setActive_isActive_other _ _ _ _ _ _ (by decide)]
    exact setActive_achieves tr cfg d .TYPE_INPUT _ hEd hIn
  · rw [hu]
    show ((d.setActive tr cfg .TYPE_INPUT (json_obj.active &&& 1 != 0)).1.setActive tr cfg
        .TYPE_OUTPUT (json_obj.active &&& 2 != 0)).1.isActive .TYPE_OUTPUT = _
    exact setActive_achieves tr cfg _ .TYPE_OUTPUT _ hEd1
      (by rw [toggleSucceeds_after_input]; exact hOut)
  · intro i hi
    rw [hu]
    show ((d.setActive tr cfg .TYPE_INPUT (json_obj.active &&& 1 != 0)).1.setActive tr cfg
        .TYPE_OUTPUT (json_obj.active &&& 2 != 0)).1._active.testBit i = _
    rw [setActive_active_testBit_other _ _ _ _ _ _ (by show ¬(i = 1); omega),
      setActive_active_testBit_other _ _ _ _ _ _ (by show ¬(i = 0); omega)]
  · rw [hu]
  · rw [hu]
    show ((d.setActive tr cfg .TYPE_INPUT (json_obj.active &&& 1 != 0)).1.setActive tr cfg
        .TYPE_OUTPUT (json_obj.active &&& 2 != 0)).1.objectName = _
    rw [setActive_name, setActive_name]

lemma update_active_eq (tr : Transport) (cfg : Option MMGConfig) (d : MMGDevice)
    (json_obj : QJsonObject) (hEd : d.editable = true)
    (hIn : toggleSucceeds tr d .TYPE_INPUT (json_obj.active &&& 1 != 0) = true)
    (hOut : toggleSucceeds tr d .TYPE_OUTPUT (json_obj.active &&& 2 != 0) = true)
    (hd4 : d._active < 4) (hr4 : json_obj.active < 4) :
    (d.update tr cfg json_obj).1._active = json_obj.active := by
  obtain ⟨h0, h1, hhi, _, _⟩ := update_spec tr cfg d json_obj hEd hIn hOut
  apply Nat.eq_of_testBit_eq
  intro i
  match i with
  | 0 =>
    have hconv : (json_obj.active &&& 1 != 0) = json_obj.active.testBit 0 :=
      and_devBit_ne_zero json_obj.active .TYPE_INPUT
    have := h0
    rw [MMGDevice.isActive_testBit, hconv] at this
    exact this
  | 1 =>
    have hconv : (json_obj.active &&& 2 != 0) = json_obj.active.testBit 1 :=
      and_devBit_ne_zero json_obj.active .TYPE_OUTPUT
    have := h1
    rw [MMGDevice.isActive_testBit, hconv] at this
    exact this
  | (i + 2) =>
    have h2i : (2 : Nat) ≤ i + 2 := by omega
    rw [hhi (i + 2) h2i]
    have hp : ∀ n : Nat, n < 4 → n.testBit (i + 2) = false := by
      intro n hn
      apply Nat.testBit_lt_two_pow
      calc n < 4 := hn
        _ ≤ 2 ^ (i + 2) := by
            have h4 : (4 : Nat) = 2 ^ 2 := by norm_num
            rw [h4]
            exact Nat.pow_le_pow_right (by norm_num) h2i
    rw [hp d._active hd4, hp json_obj.active hr4]

lemma find_name (mgr : MMGDeviceManager) (name : String) (dev : MMGDevice)
    (h : mgr.find name = some dev) : dev.objectName = name := by
  unfold MMGDeviceManager.find at h
  exact eq_of_beq
    (@List.find?_some MMGDevice (fun x => x.objectName == name) dev mgr._list h)

lemma json_thru_isSome (d : MMGDevice) :
    (d.json).thru.isSome = true ↔ d._thru ≠ "" := by
  unfold MMGDevice.json
  by_cases h : d._thru.isEmpty = true
  · rw [if_pos h]
    have he : d._thru = "" := (String.isEmpty_iff d._thru).1 h
    simp [he]
  · rw [if_neg h]
    have he : ¬d._thru = "" := fun hc => h ((String.isEmpty_iff d._thru).2 hc)
    simp [he]

/-- C5 fails as stated: adding a record with `active = 1` for a new
device whose port base is not Input-capable stores no active bit (the
`setActive` capability guard silently drops it), so serializing back
yields `active = 0`, not the input's bitmask. -/
theorem C5_counterexample :
    ¬(((mgrEmpty.add trOK pinitNoCap none ⟨"A", 1, none⟩).returned.json).active = 1) := by
  decide

/-- C5 (amended): `add(record)` followed by serializing the resulting
device yields the same name, the same combined active bitmask and a
`thru` field present iff the input's thru string was non-empty, provided
the record's active mask uses only the two direction bits and the target
device (the existing device of that name, or the freshly constructed
base) is editable, has only direction bits active, and can reach each
requested direction state (capable and with a successful transport
toggle where a toggle is needed). -/
theorem C5_round_trip (tr : Transport) (pinit : PortInit) (mgr : MMGDeviceManager)
    (cfg : Option MMGConfig) (json_obj : QJsonObject)
    (hr4 : json_obj.active < 4)
    (hTgt : match mgr.find json_obj.name with
      | some dev => dev.editable = true ∧ dev._active < 4
          ∧ toggleSucceeds tr dev .TYPE_INPUT (json_obj.active &&& 1 != 0) = true
          ∧ toggleSucceeds tr dev .TYPE_OUTPUT (json_obj.active &&& 2 != 0) = true
      | none => pinit.editable = true
          ∧ toggleSucceeds tr (constructBase pinit json_obj) .TYPE_INPUT
              (json_obj.active &&& 1 != 0) = true
          ∧ toggleSucceeds tr (constructBase pinit json_obj) .TYPE_OUTPUT
              (json_obj.active &&& 2 != 0) = true) :
    ((mgr.add tr pinit cfg json_obj).returned.json).name = json_obj.name
    ∧ ((mgr.add tr pinit cfg json_obj).returned.json).active = json_obj.active
    ∧ (((mgr.add tr pinit cfg json_obj).returned.json).thru.isSome = true ↔
        json_obj.thru.getD "" ≠ "") := by
  cases hf : mgr.find json_obj.name with
  | some dev =>
    rw [hf] at hTgt
    obtain ⟨hEd, hd4, hIn, hOut⟩ := hTgt
    have hadd : (mgr.add tr pinit cfg json_obj).returned = (dev.update tr cfg json_obj).1 := by
      simp only [MMGDeviceManager.add, hf]
    obtain ⟨h0, h1, hhi, hthru, hname⟩ := update_spec tr cfg dev json_obj hEd hIn hOut
    have hact := update_active_eq tr cfg dev json_obj hEd hIn hOut hd4 hr4
    refine ⟨?_, ?_, ?_⟩
    · show (mgr.add tr pinit cfg json_obj).returned.objectName = json_obj.name
      rw [hadd, hname]
      exact find_name mgr json_obj.name dev hf
    · show (mgr.add tr pinit cfg json_obj).returned._active = json_obj.active
      rw [hadd]
      exact hact
    · rw [hadd, json_thru_isSome, hthru]
  | none =>
    rw [hf] at hTgt
    obtain ⟨hEd, hIn, hOut⟩ := hTgt
    have hEd' : (constructBase pinit json_obj).editable = true := hEd
    have hd4 : (constructBase pinit json_obj)._active < 4 := by
      show (0 : Nat) < 4
      decide
    have hadd : (mgr.add tr pinit cfg json_obj).returned =
        ((constructBase pinit json_obj).update tr cfg json_obj).1 := by
      simp only [MMGDeviceManager.add, MMGDevice.construct, hf]
    obtain ⟨h0, h1, hhi, hthru, hname⟩ :=
      update_spec tr cfg (constructBase pinit json_obj) json_obj hEd' hIn hOut
    have hact := update_active_eq tr cfg (constructBase pinit json_obj) json_obj hEd'
      hIn hOut hd4 hr4
    refine ⟨?_, ?_, ?_⟩
    · show (mgr.add tr pinit cfg json_obj).returned.objectName = json_obj.name
      rw [hadd, hname]
      rfl
    · show (mgr.add tr pinit cfg json_obj).returned._active = json_obj.active
      rw [hadd]
      exact hact
    · rw [hadd, json_thru_isSome, hthru]

/-- Witness for C5's amended theorem: adding `{name:"A", active:3,
thru:"T"}` to an empty registry with a capable, editable base and a
working transport round-trips name, active mask and thru presence. -/
theorem C5_round_trip_witness :
    ((mgrEmpty.add trOK pinitCap none ⟨"A", 3, some "T"⟩).returned.json).name = "A"
      ∧ ((mgrEmpty.add trOK pinitCap none ⟨"A", 3, some "T"⟩).returned.json).active = 3
      ∧ (((mgrEmpty.add trOK pinitCap none ⟨"A", 3, some "T"⟩).returned.json).thru.isSome
            = true ↔ (QJsonObject.mk "A" 3 (some "T")).thru.getD "" ≠ "") :=
  C5_round_trip trOK pinitCap mgrEmpty none ⟨"A", 3, some "T"⟩ (by decide)
    (by exact ⟨rfl, by decide, by decide⟩)

-- ## Event classification and registry lemmas

lemma refresh_not_setDevice (e : Event) (h : e.isRefreshEv = true) :
    e.isSetDeviceEv = false := by
  cases e <;> first | rfl | exact absurd h (by simp [Event.isRefreshEv])

lemma toggleEvent_ne_refresh (d : MMGDevice) (t : DeviceType) (ci bi : Nat) :
    d.toggleEvent t ≠ Event.refreshEv ci bi := by
  rcases toggleEvent_cases d t with he | he <;> rw [he] <;> intro hc <;> cases hc

lemma setActive_refresh_mem (tr : Transport) (cfg : Option MMGConfig) (d : MMGDevice)
    (t : DeviceType) (want : Bool) (ci bi : Nat)
    (h : Event.refreshEv ci bi ∈ (d.setActive tr cfg t want).2) :
    ∃ c coll b, cfg = some c ∧ c.collections[ci]? = some coll ∧ coll[bi]? = some b ∧
      bindingFirstMatches d.objectName b = true := by
  rcases setActive_cases tr cfg d t want with hh | hh | hh <;> rw [hh] at h
  · simp at h
  · simp only [List.mem_cons, List.mem_singleton] at h
    rcases h with h | h | h
    · exact absurd h.symm (toggleEvent_ne_refresh d t ci bi)
    · cases h
    · simp at h
  · rcases List.mem_cons.1 h with h1 | h1
    · exact absurd h1.symm (toggleEvent_ne_refresh d t ci bi)
    · cases want with
      | false => simp at h1
      | true =>
        rw [if_pos rfl] at h1
        cases cfg with
        | none => simp [activationRefreshEvents] at h1
        | some c =>
          rw [activationRefreshEvents_some] at h1
          rcases (mem_refreshEventsCfg _ _ _ _).1 h1 with ⟨j, coll, k, b, hj, hk, hcb, he⟩
          have hji : ci = j ∧ bi = k := by
            constructor
            · have := congrArg (fun ev => match ev with
                | Event.refreshEv x _ => x
                | _ => 0) he
              simpa using this
            · have := congrArg (fun ev => match ev with
                | Event.refreshEv _ y => y
                | _ => 0) he
              simpa using this
          rcases hji with ⟨hj1, hj2⟩
          subst hj1; subst hj2
          exact ⟨c, coll, b, rfl, hj, hk, hcb⟩

lemma setActive_no_setDevice (tr : Transport) (cfg : Option MMGConfig) (d : MMGDevice)
    (t : DeviceType) (want : Bool) (e : Event) (h : e ∈ (d.setActive tr cfg t want).2) :
    e.isSetDeviceEv = false := by
  rcases setActive_cases tr cfg d t want with hh | hh | hh <;> rw [hh] at h
  · simp at h
  · simp only [List.mem_cons, List.mem_singleton] at h
    rcases h with h | h | h
    · rw [h]; exact toggleEvent_not_setDevice d t
    · rw [h]; rfl
    · simp at h
  · rcases List.mem_cons.1 h with h1 | h1
    · rw [h1]; exact toggleEvent_not_setDevice d t
    · cases want with
      | false => simp at h1
      | true =>
        rw [if_pos rfl] at h1
        cases cfg with
        | none => simp [activationRefreshEvents] at h1
        | some c =>
          rw [activationRefreshEvents_some] at h1
          exact refresh_not_setDevice e (refreshEventsCfg_all_refresh _ _ _ _ h1)

lemma update_no_setDevice (tr : Transport) (cfg : Option MMGConfig) (d : MMGDevice)
    (json_obj : QJsonObject) (e : Event) (h : e ∈ (d.update tr cfg json_obj).2) :
    e.isSetDeviceEv = false := by
  rw [update_events] at h
  rcases List.mem_append.1 h with h1 | h1
  · exact setActive_no_setDevice _ _ _ _ _ _ h1
  · exact setActive_no_setDevice _ _ _ _ _ _ h1

lemma update_refresh_mem (tr : Transport) (cfg : Option MMGConfig) (d : MMGDevice)
    (json_obj : QJsonObject) (ci bi : Nat)
    (h : Event.refreshEv ci bi ∈ (d.update tr cfg json_obj).2) :
    ∃ c coll b, cfg = some c ∧ c.collections[ci]? = some coll ∧ coll[bi]? = some b ∧
      bindingFirstMatches d.objectName b = true := by
  rw [update_events] at h
  rcases List.mem_append.1 h with h1 | h1
  · exact setActive_refresh_mem _ _ _ _ _ _ _ h1
  · rcases setActive_refresh_mem _ _ _ _ _ _ _ h1 with ⟨c, coll, b, hc, hcoll, hb, hm⟩
    rw [setActive_name] at hm
    exact ⟨c, coll, b, hc, hcoll, hb, hm⟩

lemma refreshBindings_all_refresh (cfg : Option MMGConfig) (name : String) (e : Event)
    (h : e ∈ MMGDeviceManager.refreshBindingsForDevice cfg name) : e.isRefreshEv = true := by
  cases cfg with
  | none => simp [MMGDeviceManager.refreshBindingsForDevice] at h
  | some c => exact refreshEventsCfg_all_refresh _ _ _ _ h

lemma first_implies_any (name : String) (b : MMGBinding)
    (h : bindingFirstMatches name b = true) : bindingAnyMatches name b = true := by
  obtain ⟨ms⟩ := b
  cases ms with
  | nil => simp [bindingFirstMatches] at h
  | cons m rest =>
    simp only [bindingFirstMatches] at h
    simp [bindingAnyMatches, List.any_cons, h]

lemma replaceFirstNamed_length (l : List MMGDevice) (name : String) (d' : MMGDevice) :
    (replaceFirstNamed l name d').length = l.length := by
  induction l with
  | nil => rfl
  | cons d0 rest ih =>
    unfold replaceFirstNamed
    split
    · rfl
    · simp [ih]

lemma replaceFirstNamed_spec (l : List MMGDevice) (name : String) (d' dev : MMGDevice)
    (h : l.find? (fun d => d.objectName == name) = some dev) :
    ∃ i : Nat, l[i]? = some dev ∧ (replaceFirstNamed l name d')[i]? = some d'
      ∧ ∀ j : Nat, ¬(j = i) → (replaceFirstNamed l name d')[j]? = l[j]? := by
  induction l with
  | nil => cases h
  | cons d0 rest ih =>
    by_cases h0 : (d0.objectName == name) = true
    · rw [@List.find?_cons_of_pos MMGDevice (fun d => d.objectName == name) d0 rest h0] at h
      injection h with h
      subst h
      refine ⟨0, ?_, ?_, ?_⟩
      · simp
      · show (replaceFirstNamed (d0 :: rest) name d')[0]? = some d'
        unfold replaceFirstNamed
        rw [if_pos h0]
        simp
      · intro j hj
        show (replaceFirstNamed (d0 :: rest) name d')[j]? = (d0 :: rest)[j]?
        unfold replaceFirstNamed
        rw [if_pos h0]
        cases j with
        | zero => exact absurd rfl hj
        | succ k => rw [List.getElem?_cons_succ, List.getElem?_cons_succ]
    · rw [@List.find?_cons_of_neg MMGDevice (fun d => d.objectName == name) d0 rest h0] at h
      rcases ih h with ⟨i, hdev, hnew, hfr⟩
      refine ⟨i + 1, ?_, ?_, ?_⟩
      · rw [List.getElem?_cons_succ]
        exact hdev
      · show (replaceFirstNamed (d0 :: rest) name d')[i + 1]? = some d'
        unfold replaceFirstNamed
        rw [if_neg h0, List.getElem?_cons_succ]
        exact hnew
      · intro j hj
        show (replaceFirstNamed (d0 :: rest) name d')[j]? = (d0 :: rest)[j]?
        unfold replaceFirstNamed
        rw [if_neg h0]
        cases j with
        | zero => rw [List.getElem?_cons_zero, List.getElem?_cons_zero]
        | succ k =>
          have hk : ¬(k = i) := fun hc => hj (by rw [hc])
          rw [List.getElem?_cons_succ, List.getElem?_cons_succ]
          exact hfr k hk

lemma refreshEv_inj (ci bi j k : Nat) (h : Event.refreshEv ci bi = Event.refreshEv j k) :
    ci = j ∧ bi = k := by
  injection h with h1 h2
  exact ⟨h1, h2⟩

lemma bindingAt_some_iff (c : MMGConfig) (ci bi : Nat) (b : MMGBinding) :
    bindingAt (some c) ci bi = some b ↔
      ∃ coll, c.collections[ci]? = some coll ∧ coll[bi]? = some b := by
  have hred : bindingAt (some c) ci bi =
      (match c.collections[ci]? with
       | none => none
       | some coll => coll[bi]?) := rfl
  rw [hred]
  cases hcc : c.collections[ci]? with
  | none => simp
  | some coll => simp

/-- C7: for a record naming an existing device, `add` updates that
device in place (same registry slot, same length, result of
`Device::update`), leaves the config untouched and repoints nothing, and
refreshes exactly those bindings having at least one message — any
message, not only the first — naming the record's device. -/
theorem C7_add_existing_device (tr : Transport) (pinit : PortInit) (mgr : MMGDeviceManager)
    (cfg : Option MMGConfig) (json_obj : QJsonObject) (dev : MMGDevice)
    (hf : mgr.find json_obj.name = some dev) :
    (mgr.add tr pinit cfg json_obj).returned = (dev.update tr cfg json_obj).1
    ∧ (mgr.add tr pinit cfg json_obj).config = cfg
    ∧ (mgr.add tr pinit cfg json_obj).manager._list.length = mgr._list.length
    ∧ (∃ i : Nat, mgr._list[i]? = some dev
        ∧ (mgr.add tr pinit cfg json_obj).manager._list[i]? =
            some (mgr.add tr pinit cfg json_obj).returned
        ∧ ∀ j : Nat, ¬(j = i) →
            (mgr.add tr pinit cfg json_obj).manager._list[j]? = mgr._list[j]?)
    ∧ (∀ e ∈ (mgr.add tr pinit cfg json_obj).events, e.isSetDeviceEv = false)
    ∧ (∀ ci bi b, bindingAt cfg ci bi = some b →
        (Event.refreshEv ci bi ∈ (mgr.add tr pinit cfg json_obj).events ↔
          bindingAnyMatches json_obj.name b = true)) := by
  have hadd : mgr.add tr pinit cfg json_obj =
      { manager :=
          { _list := replaceFirstNamed mgr._list json_obj.name (dev.update tr cfg json_obj).1 }
        config := cfg
        returned := (dev.update tr cfg json_obj).1
        events := (dev.update tr cfg json_obj).2 ++
          MMGDeviceManager.refreshBindingsForDevice cfg json_obj.name } := by
    simp only [MMGDeviceManager.add, hf]
  refine ⟨by rw [hadd], by rw [hadd], ?_, ?_, ?_, ?_⟩
  · rw [hadd]
    exact replaceFirstNamed_length mgr._list json_obj.name (dev.update tr cfg json_obj).1
  · have hf' : mgr._list.find? (fun d => d.objectName == json_obj.name) = some dev := hf
    rcases replaceFirstNamed_spec mgr._list json_obj.name (dev.update tr cfg json_obj).1 dev
      hf' with ⟨i, h1, h2, h3⟩
    refine ⟨i, h1, ?_, ?_⟩
    · rw [hadd]
      exact h2
    · intro j hj
      rw [hadd]
      exact h3 j hj
  · intro e he
    rw [hadd] at he
    rcases List.mem_append.1 he with h1 | h1
    · exact update_no_setDevice _ _ _ _ _ h1
    · exact refresh_not_setDevice e (refreshBindings_all_refresh _ _ _ h1)
  · intro ci bi b hb
    rw [hadd]
    cases cfg with
    | none => simp [bindingAt] at hb
    | some c =>
      rcases (bindingAt_some_iff c ci bi b).1 hb with ⟨coll, hcoll, hbb⟩
      constructor
      · intro hmem
        rcases List.mem_append.1 hmem with h1 | h1
        · rcases update_refresh_mem _ _ _ _ _ _ h1 with ⟨c', coll', b', hc', hcoll', hb', hm⟩
          injection hc' with hc'
          subst hc'
          rw [hcoll] at hcoll'
          injection hcoll' with hcoll'
          subst hcoll'
          rw [hbb] at hb'
          injection hb' with hb'
          subst hb'
          rw [find_name mgr json_obj.name dev hf] at hm
          exact first_implies_any json_obj.name b hm
        · rcases (mem_refreshEventsCfg (bindingAnyMatches json_obj.name) c.collections 0
            _).1 h1 with ⟨j, coll', k, b', hj, hk, hcb', he⟩
          rcases refreshEv_inj ci bi (0 + j) k he with ⟨h1', h2'⟩
          have hj0 : j = ci := by omega
          subst hj0
          subst h2'
          rw [hcoll] at hj
          injection hj with hj
          subst hj
          rw [hbb] at hk
          injection hk with hk
          subst hk
          exact hcb'
      · intro hany
        apply List.mem_append.2
        right
        show Event.refreshEv ci bi ∈
          MMGDeviceManager.refreshBindingsForDevice (some c) json_obj.name
        exact (mem_refreshEventsCfg _ _ _ _).2 ⟨ci, coll, bi, b, hcoll, hbb, hany, by simp⟩

/-- Witness for C7: updating existing device "A" refreshes the binding
whose only "A" reference is its *second* message (the broad cascade). -/
theorem C7_add_existing_device_witness :
    Event.refreshEv 0 1 ∈ (mgrA.add trOK pinitCap (some cfgA) ⟨"A", 0, none⟩).events :=
  ((C7_add_existing_device trOK pinitCap mgrA (some cfgA) ⟨"A", 0, none⟩ devA
      (by decide)).2.2.2.2.2 0 1 ⟨[⟨"B", none⟩, ⟨"A", none⟩]⟩ (by decide)).2 (by decide)

-- ## Repointing lemmas for the new-device path

lemma mem_of_getElem?_ev {l : List Event} {n : Nat} {a : Event} (h : l[n]? = some a) :
    a ∈ l := by
  rcases List.getElem?_eq_some_iff.1 h with ⟨hlt, hg⟩
  rw [← hg]
  exact List.getElem_mem hlt

lemma repointMessage_fst (dn nn : String) (m : MMGMessage) :
    (repointMessage dn nn m).1 =
      if m.device.isNone || m.device == some dn then { m with device := some nn }
      else m := by
  unfold repointMessage
  split <;> rfl

lemma repointMsgList_fst (dn nn : String) (ci bi : Nat) :
    ∀ (mi : Nat) (ms : List MMGMessage),
      (repointMsgList dn nn ci bi mi ms).1 = ms.map (fun m => (repointMessage dn nn m).1) := by
  intro mi ms
  induction ms generalizing mi with
  | nil => rfl
  | cons m rest ih =>
    unfold repointMsgList
    simp [ih]

lemma repointBindList_fst (dn nn : String) (ci : Nat) :
    ∀ (bi : Nat) (bs : List MMGBinding),
      (repointBindList dn nn ci bi bs).1 =
        bs.map (fun b => ⟨b.messages.map (fun m => (repointMessage dn nn m).1)⟩) := by
  intro bi bs
  induction bs generalizing bi with
  | nil => rfl
  | cons b rest ih =>
    unfold repointBindList
    simp [ih, repointMsgList_fst]

lemma repointCollList_fst (dn nn : String) :
    ∀ (ci : Nat) (colls : List (List MMGBinding)),
      (repointCollList dn nn ci colls).1 =
        colls.map (fun coll =>
          coll.map (fun b => ⟨b.messages.map (fun m => (repointMessage dn nn m).1)⟩)) := by
  intro ci colls
  induction colls generalizing ci with
  | nil => rfl
  | cons coll rest ih =>
    unfold repointCollList
    simp [ih, repointBindList_fst]

lemma messageAt_repoint (c : MMGConfig) (dn nn : String) (ci bi mi : Nat) :
    messageAt (some ⟨(repointCollList dn nn 0 c.collections).1⟩) ci bi mi =
      (messageAt (some c) ci bi mi).map (fun m => (repointMessage dn nn m).1) := by
  rw [repointCollList_fst]
  unfold messageAt
  have hb : bindingAt (some ⟨c.collections.map (fun coll =>
      coll.map (fun b => ⟨b.messages.map (fun m => (repointMessage dn nn m).1)⟩))⟩) ci bi =
      (bindingAt (some c) ci bi).map
        (fun b => ⟨b.messages.map (fun m => (repointMessage dn nn m).1)⟩) := by
    have h1 : bindingAt (some c) ci bi =
        (match c.collections[ci]? with
         | none => none
         | some coll => coll[bi]?) := rfl
    have h2 : bindingAt (some ⟨c.collections.map (fun coll =>
        coll.map (fun b => ⟨b.messages.map (fun m => (repointMessage dn nn m).1)⟩))⟩) ci bi =
        (match (c.collections.map (fun coll =>
            coll.map (fun b => ⟨b.messages.map (fun m => (repointMessage dn nn m).1)⟩)))[ci]? with
         | none => none
         | some coll => coll[bi]?) := rfl
    rw [h1, h2, List.getElem?_map]
    cases hcc : c.collections[ci]? with
    | none => rfl
    | some coll =>
      show (coll.map (fun b =>
          (⟨b.messages.map (fun m => (repointMessage dn nn m).1)⟩ : MMGBinding)))[bi]? =
        Option.map (fun b =>
          (⟨b.messages.map (fun m => (repointMessage dn nn m).1)⟩ : MMGBinding)) coll[bi]?
      rw [List.getElem?_map]
  rw [hb]
  cases hbv : bindingAt (some c) ci bi with
  | none => rfl
  | some b =>
    show (b.messages.map (fun m => (repointMessage dn nn m).1))[mi]? =
      Option.map (fun m => (repointMessage dn nn m).1) (b.messages[mi]?)
    rw [List.getElem?_map]

lemma dummy_branch (mgr : MMGDeviceManager) :
    (if (mgr.find dummyName).isSome then mgr.removeByName dummyName else mgr)._list =
      mgr._list.eraseP (fun d => d.objectName == dummyName) := by
  by_cases h : (mgr.find dummyName).isSome = true
  · rw [if_pos h]
    rfl
  · rw [if_neg h]
    have hn : mgr.find dummyName = none := by
      cases hx : mgr.find dummyName
      · rfl
      · rw [hx] at h; simp at h
    have hall : ∀ d ∈ mgr._list, ¬(d.objectName == dummyName) = true :=
      List.find?_eq_none.1 hn
    exact (List.eraseP_of_forall_not hall).symm

/-- C3 fails as stated on its ordering clause: constructing the new
device runs `update`, whose `setActive` calls fire the narrow activation
cascade — so a binding refresh (trace index 1) happens before the
message repointing (trace index 4), not strictly after it. -/
theorem C3_counterexample :
    ¬(∀ (i j : Nat) (e1 e2 : Event),
        (mgrDummy.add trOK pinitCap (some cfgA) ⟨"A", 3, none⟩).events[i]? = some e1 →
        e1.isSetDeviceEv = true →
        (mgrDummy.add trOK pinitCap (some cfgA) ⟨"A", 3, none⟩).events[j]? = some e2 →
        e2.isRefreshEv = true → i < j) := by
  intro h
  have := h 4 1 (Event.setDeviceEv 0 0 0) (Event.refreshEv 0 0) (by decide) (by decide)
    (by decide) (by decide)
  omega

/-- C3 (amended): for a record naming no existing device, `add` removes
the dummy placeholder if present, constructs and registers the new
device under the record's name (returning it), repoints every message
whose device back-reference is null or names the record's device, and
runs the broad refresh on the repointed graph after all repointing —
while refreshes from the narrow activation cascade fired during
construction may precede the repointing. -/
theorem C3_add_new_device (tr : Transport) (pinit : PortInit) (mgr : MMGDeviceManager)
    (cfg : Option MMGConfig) (json_obj : QJsonObject)
    (hf : mgr.find json_obj.name = none) :
    (mgr.add tr pinit cfg json_obj).returned.objectName = json_obj.name
    ∧ (mgr.add tr pinit cfg json_obj).manager._list =
        mgr._list.eraseP (fun d => d.objectName == dummyName) ++
          [(mgr.add tr pinit cfg json_obj).returned]
    ∧ (∀ ci bi mi : Nat, ∀ m : MMGMessage, messageAt cfg ci bi mi = some m →
        messageAt (mgr.add tr pinit cfg json_obj).config ci bi mi =
          some (if m.device.isNone || m.device == some json_obj.name then
                  { m with device := some json_obj.name } else m))
    ∧ (∀ ci bi : Nat, ∀ b : MMGBinding,
        bindingAt (mgr.add tr pinit cfg json_obj).config ci bi = some b →
        bindingAnyMatches json_obj.name b = true →
        ∃ i : Nat,
          (mgr.add tr pinit cfg json_obj).events[i]? = some (Event.refreshEv ci bi)
          ∧ ∀ j : Nat, ∀ e : Event,
              (mgr.add tr pinit cfg json_obj).events[j]? = some e →
              e.isSetDeviceEv = true → j < i) := by
  have hname : (MMGDevice.construct tr cfg pinit json_obj).1.objectName = json_obj.name := by
    show ((constructBase pinit json_obj).update tr cfg json_obj).1.objectName = json_obj.name
    rw [update_name]
    rfl
  have hadd : mgr.add tr pinit cfg json_obj =
      { manager := ⟨(if (mgr.find dummyName).isSome then mgr.removeByName dummyName
            else mgr)._list ++ [(MMGDevice.construct tr cfg pinit json_obj).1]⟩
        config := (MMGDeviceManager.updateDeviceReferences cfg json_obj.name
            (MMGDevice.construct tr cfg pinit json_obj).1.objectName).1
        returned := (MMGDevice.construct tr cfg pinit json_obj).1
        events := (MMGDevice.construct tr cfg pinit json_obj).2 ++
            (MMGDeviceManager.updateDeviceReferences cfg json_obj.name
              (MMGDevice.construct tr cfg pinit json_obj).1.objectName).2 ++
            MMGDeviceManager.refreshBindingsForDevice
              (MMGDeviceManager.updateDeviceReferences cfg json_obj.name
                (MMGDevice.construct tr cfg pinit json_obj).1.objectName).1
              json_obj.name } := by
    simp only [MMGDeviceManager.add, hf]
  have hret : (mgr.add tr pinit cfg json_obj).returned =
      (MMGDevice.construct tr cfg pinit json_obj).1 := by rw [hadd]
  have hcfg : (mgr.add tr pinit cfg json_obj).config =
      (MMGDeviceManager.updateDeviceReferences cfg json_obj.name json_obj.name).1 := by
    rw [hadd, hname]
  have hlist : (mgr.add tr pinit cfg json_obj).manager._list =
      (if (mgr.find dummyName).isSome then mgr.removeByName dummyName else mgr)._list ++
        [(MMGDevice.construct tr cfg pinit json_obj).1] := by rw [hadd]
  have hev : (mgr.add tr pinit cfg json_obj).events =
      ((MMGDevice.construct tr cfg pinit json_obj).2 ++
        (MMGDeviceManager.updateDeviceReferences cfg json_obj.name json_obj.name).2) ++
      MMGDeviceManager.refreshBindingsForDevice
        (MMGDeviceManager.updateDeviceReferences cfg json_obj.name json_obj.name).1
        json_obj.name := by
    rw [hadd, hname]
  refine ⟨?_, ?_, ?_, ?_⟩
  · rw [hret]
    exact hname
  · rw [hlist, hret, dummy_branch]
  · intro ci bi mi m hm
    rw [hcfg]
    cases cfg with
    | none => exact Option.noConfusion hm
    | some c =>
      have hupd : (MMGDeviceManager.updateDeviceReferences (some c) json_obj.name
          json_obj.name).1 =
          some ⟨(repointCollList json_obj.name json_obj.name 0 c.collections).1⟩ := rfl
      rw [hupd, messageAt_repoint, hm]
      show some ((repointMessage json_obj.name json_obj.name m).1) = _
      rw [repointMessage_fst]
  · intro ci bi b hb hany
    rw [hcfg] at hb
    cases cfg with
    | none => exact Option.noConfusion hb
    | some c =>
      have hupd : (MMGDeviceManager.updateDeviceReferences (some c) json_obj.name
          json_obj.name).1 =
          some ⟨(repointCollList json_obj.name json_obj.name 0 c.collections).1⟩ := rfl
      rw [hupd] at hb
      rcases (bindingAt_some_iff _ ci bi b).1 hb with ⟨coll, hcoll, hbb⟩
      have hbroad : Event.refreshEv ci bi ∈
          MMGDeviceManager.refreshBindingsForDevice
            (some ⟨(repointCollList json_obj.name json_obj.name 0 c.collections).1⟩)
            json_obj.name :=
        (mem_refreshEventsCfg _ _ _ _).2 ⟨ci, coll, bi, b, hcoll, hbb, hany, by simp⟩
      rcases List.mem_iff_getElem?.1 hbroad with ⟨n, hn⟩
      refine ⟨((MMGDevice.construct tr (some c) pinit json_obj).2 ++
          (MMGDeviceManager.updateDeviceReferences (some c) json_obj.name
            json_obj.name).2).length + n, ?_, ?_⟩
      · rw [hev, hupd, List.getElem?_append_right (by omega), Nat.add_sub_cancel_left]
        exact hn
      · intro j e hj hsd
        by_cases hjlt : j < ((MMGDevice.construct tr (some c) pinit json_obj).2 ++
            (MMGDeviceManager.updateDeviceReferences (some c) json_obj.name
              json_obj.name).2).length
        · omega
        · exfalso
          rw [hev, hupd] at hj
          rw [List.getElem?_append_right (by omega)] at hj
          have hmem := mem_of_getElem?_ev hj
          have hre := refreshBindings_all_refresh _ _ _ hmem
          exact Bool.noConfusion ((refresh_not_setDevice e hre).symm.trans hsd)

/-- Witness for C3's amended theorem: a registry containing only the
dummy placeholder ends with exactly one device, "Real", after
`add({name:"Real"})`. -/
theorem C3_add_new_device_witness :
    (mgrDummy.add trOK pinitCap none ⟨"Real", 0, none⟩).manager._list.map
      (fun d => d.objectName) = ["Real"] := by
  have h := C3_add_new_device trOK pinitCap mgrDummy none ⟨"Real", 0, none⟩ (by decide)
  rw [h.2.1]
  rw [show (mgrDummy._list.eraseP (fun d => d.objectName == dummyName)) =
    ([] : List MMGDevice) from by decide]
  simp [h.1]
